import Mathlib

/-!
Verification development for the CuraEngine interlocking microstructure generator.

Shallow embedding of `src/src/utils/VoxelUtils.h` and
`src/src/InterlockingGenerator.cpp`.

Conventions:
* `coord_t` (signed 64-bit) is embedded as `ℤ`; C++ `/` on signed integers
  truncates toward zero and is embedded as `Int.tdiv`.
* `Polygons` objects are embedded by their planar region semantics as
  `Set (ℝ × ℝ)`; the polygon algebra library (`utils/polygon.h`, repository
  code that is not among the sources under verification) is modelled from
  the spec.
* Voxel cell sets (`std::unordered_set<GridPoint3>`) are embedded as
  `Finset GridPoint3`; membership is the only observable property.
-/

namespace CuraEngine

/-! ## VoxelUtils (src/src/utils/VoxelUtils.h) -/

/-- `Point3` from `IntPoint.h`: a triple of `coord_t`. -/
structure Point3 where
  x : ℤ
  y : ℤ
  z : ℤ
deriving DecidableEq, Repr

/-- `Point3::operator[]`: component access by dimension index. -/
def Point3.idx (p : Point3) (dim : Nat) : ℤ :=
  if dim = 0 then p.x else if dim = 1 then p.y else p.z

/-- `using GridPoint3 = Point3` (VoxelUtils.h line 18). -/
abbrev GridPoint3 := Point3

/-- `class VoxelUtils` carrying the `cell_size` field (VoxelUtils.h lines 51-58). -/
structure VoxelUtils where
  cell_size : Point3

/-- `VoxelUtils::toGridCoord` (VoxelUtils.h lines 95-99):
`return coord / cell_size[dim] - (coord < 0);` with C++ truncating division. -/
def VoxelUtils.toGridCoord (vu : VoxelUtils) (coord : ℤ) (dim : Nat) : ℤ :=
  Int.tdiv coord (vu.cell_size.idx dim) - (if coord < 0 then 1 else 0)

/-- `VoxelUtils::toGridPoint` (VoxelUtils.h lines 90-93). -/
def VoxelUtils.toGridPoint (vu : VoxelUtils) (p : Point3) : GridPoint3 :=
  ⟨vu.toGridCoord p.x 0, vu.toGridCoord p.y 1, vu.toGridCoord p.z 2⟩

/-- `VoxelUtils::toLowerCoord` (VoxelUtils.h lines 106-110):
`return grid_coord * cell_size[dim];`. -/
def VoxelUtils.toLowerCoord (vu : VoxelUtils) (grid_coord : ℤ) (dim : Nat) : ℤ :=
  grid_coord * vu.cell_size.idx dim

/-- `VoxelUtils::toLowerCorner` (VoxelUtils.h lines 101-104). -/
def VoxelUtils.toLowerCorner (vu : VoxelUtils) (location : GridPoint3) : Point3 :=
  ⟨vu.toLowerCoord location.x 0, vu.toLowerCoord location.y 1,
   vu.toLowerCoord location.z 2⟩

/-! ### Arithmetic facts about the grid mapping -/

/-- Truncating division against floor division for a positive divisor:
they agree except on negative non-multiples, where truncation is one larger. -/
lemma tdiv_eq_fdiv_add (c s : ℤ) (hs : 0 < s) :
    c.tdiv s = c.fdiv s + (if c < 0 ∧ ¬ s ∣ c then 1 else 0) := by
  rcases le_or_lt 0 c with hc | hc
  · rw [Int.tdiv_eq_ediv hc hs.le, Int.fdiv_eq_ediv _ hs.le]
    simp [hc.not_lt]
  · rw [Int.fdiv_eq_ediv _ hs.le]
    have htd : c.tdiv s = -((-c) / s) := by
      have h1 : (-c).tdiv s = (-c) / s := Int.tdiv_eq_ediv (by omega) hs.le
      have h2 : (-c).tdiv s = -(c.tdiv s) := Int.neg_tdiv c s
      linarith
    have hqr : (-c) % s + s * ((-c) / s) = -c := Int.emod_add_ediv (-c) s
    have hr0 : 0 ≤ (-c) % s := Int.emod_nonneg _ (by omega)
    have hrs : (-c) % s < s := Int.emod_lt_of_pos _ hs
    by_cases hdvd : s ∣ c
    · have hz : (-c) % s = 0 := Int.emod_eq_zero_of_dvd (dvd_neg.mpr hdvd)
      rw [hz] at hqr
      have hq : c / s = -((-c) / s) := by
        refine ((@Int.ediv_emod_unique c s 0 (-((-c) / s)) hs).mpr ⟨?_, le_refl 0, hs⟩).1
        linear_combination -hqr
      simp only [hc, hdvd, not_true, and_false, if_false]
      linarith
    · have hz : (-c) % s ≠ 0 := by
        intro h
        exact hdvd (dvd_neg.mp (Int.dvd_of_emod_eq_zero h))
      have hq : c / s = -((-c) / s) - 1 := by
        refine ((@Int.ediv_emod_unique c s (s - (-c) % s) (-((-c) / s) - 1) hs).mpr
          ⟨?_, by omega, by omega⟩).1
        linear_combination -hqr
      simp only [hc, hdvd, not_false_iff, and_self, if_true]
      linarith

/-- What `toGridCoord` actually computes, in terms of true floor division:
floor division, except one less at negative exact multiples of the cell size. -/
lemma toGridCoord_eq (vu : VoxelUtils) (c : ℤ) (d : Nat)
    (h : 0 < vu.cell_size.idx d) :
    vu.toGridCoord c d =
      c.fdiv (vu.cell_size.idx d) -
        (if c < 0 ∧ vu.cell_size.idx d ∣ c then 1 else 0) := by
  unfold VoxelUtils.toGridCoord
  rw [tdiv_eq_fdiv_add c _ h]
  by_cases hc : c < 0
  · by_cases hdvd : vu.cell_size.idx d ∣ c
    · simp [hc, hdvd]
    · simp [hc, hdvd]
  · simp [hc]

/-- `toGridCoord` at an exact multiple of the cell size. -/
lemma toGridCoord_mul (vu : VoxelUtils) (g : ℤ) (d : Nat)
    (h : 0 < vu.cell_size.idx d) :
    vu.toGridCoord (g * vu.cell_size.idx d) d =
      if g < 0 then g - 1 else g := by
  have hne : vu.cell_size.idx d ≠ 0 := by omega
  have hcancel : (g * vu.cell_size.idx d).tdiv (vu.cell_size.idx d) = g := by
    rw [mul_comm]
    exact Int.mul_tdiv_cancel_left g hne
  have hsign : g * vu.cell_size.idx d < 0 ↔ g < 0 := by
    constructor
    · intro hlt
      by_contra hge
      push_neg at hge
      nlinarith
    · intro hlt
      exact mul_neg_of_neg_of_pos hlt h
  unfold VoxelUtils.toGridCoord
  rw [hcancel]
  by_cases hg : g < 0
  · simp [hsign.mpr hg, hg]
  · have : ¬ g * vu.cell_size.idx d < 0 := fun hlt => hg (hsign.mp hlt)
    simp [this, hg]

/-- Scalar remainder characterization of `toLowerCoord` after `toGridCoord`. -/
lemma sub_toLowerCoord_toGridCoord (vu : VoxelUtils) (c : ℤ) (d : Nat)
    (h : 0 < vu.cell_size.idx d) :
    c - vu.toLowerCoord (vu.toGridCoord c d) d =
      (if c < 0 ∧ vu.cell_size.idx d ∣ c then vu.cell_size.idx d
       else c % vu.cell_size.idx d) := by
  set s := vu.cell_size.idx d with hsdef
  have hfd : c.fdiv s = c / s := Int.fdiv_eq_ediv c (by omega)
  have hqr : c % s + s * (c / s) = c := Int.emod_add_ediv c s
  unfold VoxelUtils.toLowerCoord
  rw [toGridCoord_eq vu c d h, hfd]
  by_cases hcase : c < 0 ∧ s ∣ c
  · have hz : c % s = 0 := Int.emod_eq_zero_of_dvd hcase.2
    rw [hz] at hqr
    simp only [hcase, and_self, if_true, if_pos]
    ring_nf
    linarith
  · simp only [hcase, if_false]
    ring_nf
    linarith

/-- Component access of `toGridPoint` for an in-range dimension. -/
lemma toGridPoint_idx (vu : VoxelUtils) (p : Point3) (d : Nat) (hd : d < 3) :
    (vu.toGridPoint p).idx d = vu.toGridCoord (p.idx d) d := by
  interval_cases d <;> rfl

/-- Component access of `toLowerCorner` for an in-range dimension. -/
lemma toLowerCorner_idx (vu : VoxelUtils) (g : GridPoint3) (d : Nat) (hd : d < 3) :
    (vu.toLowerCorner g).idx d = vu.toLowerCoord (g.idx d) d := by
  interval_cases d <;> rfl

/-! ### Claims C3 and C4 -/

/-- C3 counterexample: with cell size 2, the code maps the coordinate −4 to
grid cell −3, while true floor division gives −2, and the divisor is
positive; the fixup `coord / cell_size − (coord < 0)` is therefore not floor
division. -/
theorem toGridCoord_truncation_cex :
    (0:ℤ) < (VoxelUtils.mk ⟨2, 2, 2⟩).cell_size.idx 0 ∧
    (VoxelUtils.mk ⟨2, 2, 2⟩).toGridCoord (-4) 0 = -3 ∧
    Int.fdiv (-4 : ℤ) 2 = -2 := by
  refine ⟨by decide, ?_, by decide⟩
  decide

/-- C3 (amended): for every coordinate `c` and dimension `d` with positive
cell size, `toGridCoord c d` equals `⌊c / cell_size[d]⌋`, except when `c` is
a negative exact multiple of `cell_size[d]`, where it is `⌊c / cell_size[d]⌋ − 1`. -/
theorem toGridCoord_characterization (vu : VoxelUtils) (c : ℤ) (d : Nat)
    (h : 0 < vu.cell_size.idx d) :
    vu.toGridCoord c d =
      c.fdiv (vu.cell_size.idx d) -
        (if c < 0 ∧ vu.cell_size.idx d ∣ c then 1 else 0) :=
  toGridCoord_eq vu c d h

/-- Witness for `toGridCoord_characterization` at cell size 2 and coordinate −4. -/
theorem toGridCoord_characterization_witness :
    (0:ℤ) < (VoxelUtils.mk ⟨2, 2, 2⟩).cell_size.idx 0 ∧
    (VoxelUtils.mk ⟨2, 2, 2⟩).toGridCoord (-4) 0 =
      Int.fdiv (-4 : ℤ) ((VoxelUtils.mk ⟨2, 2, 2⟩).cell_size.idx 0) -
        (if (-4 : ℤ) < 0 ∧ (VoxelUtils.mk ⟨2, 2, 2⟩).cell_size.idx 0 ∣ (-4 : ℤ)
         then 1 else 0) :=
  ⟨by decide, toGridCoord_characterization (VoxelUtils.mk ⟨2, 2, 2⟩) (-4) 0 (by decide)⟩

/-- C4 counterexample: with cell size (2,2,2), the grid point (−1,0,0) does
not round-trip through `toLowerCorner` and `toGridPoint` (it comes back as
(−2,0,0)), and for the point (−4,0,0) the difference `p − toLowerCorner(toGridPoint p)`
in x is 2 = cell_size.x, not < cell_size.x. -/
theorem gridRoundTrip_cex :
    (VoxelUtils.mk ⟨2, 2, 2⟩).toGridPoint
        ((VoxelUtils.mk ⟨2, 2, 2⟩).toLowerCorner ⟨-1, 0, 0⟩) = ⟨-2, 0, 0⟩ ∧
    (Point3.mk (-2) 0 0 ≠ Point3.mk (-1) 0 0) ∧
    (-4 : ℤ) - ((VoxelUtils.mk ⟨2, 2, 2⟩).toLowerCorner
        ((VoxelUtils.mk ⟨2, 2, 2⟩).toGridPoint ⟨-4, 0, 0⟩)).x = 2 := by
  refine ⟨?_, by decide, ?_⟩ <;> decide

/-- C4 (amended): with positive cell sizes, per component `d < 3`:
the round trip `toGridPoint (toLowerCorner g)` returns `g` on nonnegative
components and `g − 1` on negative components; `toLowerCorner (toGridPoint p) ≤ p`
always holds; and the difference `p − toLowerCorner (toGridPoint p)` equals the
cell size at negative exact multiples and the (nonnegative, < cell size)
remainder `p % cell_size` otherwise, hence it is at most the cell size. -/
theorem gridRoundTrip_characterization (vu : VoxelUtils) (g p : Point3) (d : Nat)
    (hd : d < 3) (h : 0 < vu.cell_size.idx d) :
    ((vu.toGridPoint (vu.toLowerCorner g)).idx d =
      if g.idx d < 0 then g.idx d - 1 else g.idx d) ∧
    (p.idx d - (vu.toLowerCorner (vu.toGridPoint p)).idx d =
      if p.idx d < 0 ∧ vu.cell_size.idx d ∣ p.idx d then vu.cell_size.idx d
      else p.idx d % vu.cell_size.idx d) ∧
    ((vu.toLowerCorner (vu.toGridPoint p)).idx d ≤ p.idx d) ∧
    (p.idx d - (vu.toLowerCorner (vu.toGridPoint p)).idx d ≤ vu.cell_size.idx d) := by
  have hrt : (vu.toGridPoint (vu.toLowerCorner g)).idx d =
      if g.idx d < 0 then g.idx d - 1 else g.idx d := by
    rw [toGridPoint_idx vu _ d hd, toLowerCorner_idx vu g d hd]
    unfold VoxelUtils.toLowerCoord
    exact toGridCoord_mul vu (g.idx d) d h
  have hsub : p.idx d - (vu.toLowerCorner (vu.toGridPoint p)).idx d =
      if p.idx d < 0 ∧ vu.cell_size.idx d ∣ p.idx d then vu.cell_size.idx d
      else p.idx d % vu.cell_size.idx d := by
    rw [toLowerCorner_idx vu _ d hd, toGridPoint_idx vu p d hd]
    exact sub_toLowerCoord_toGridCoord vu (p.idx d) d h
  have hmod0 : 0 ≤ p.idx d % vu.cell_size.idx d := Int.emod_nonneg _ (by omega)
  have hmods : p.idx d % vu.cell_size.idx d < vu.cell_size.idx d :=
    Int.emod_lt_of_pos _ h
  refine ⟨hrt, hsub, ?_, ?_⟩
  · by_cases hcase : p.idx d < 0 ∧ vu.cell_size.idx d ∣ p.idx d
    · rw [if_pos hcase] at hsub
      omega
    · rw [if_neg hcase] at hsub
      omega
  · by_cases hcase : p.idx d < 0 ∧ vu.cell_size.idx d ∣ p.idx d
    · rw [if_pos hcase] at hsub
      omega
    · rw [if_neg hcase] at hsub
      omega

/-- Witness for `gridRoundTrip_characterization` at cell size (2,3,4),
grid point (−1,2,0), point (−4,5,7), dimension 0. -/
theorem gridRoundTrip_characterization_witness :
    (0 < 3 ∧ (0:ℤ) < (VoxelUtils.mk ⟨2, 3, 4⟩).cell_size.idx 0) ∧
    (((VoxelUtils.mk ⟨2, 3, 4⟩).toGridPoint
        ((VoxelUtils.mk ⟨2, 3, 4⟩).toLowerCorner ⟨-1, 2, 0⟩)).idx 0 =
      if (Point3.mk (-1) 2 0).idx 0 < 0 then (Point3.mk (-1) 2 0).idx 0 - 1
      else (Point3.mk (-1) 2 0).idx 0) ∧
    ((Point3.mk (-4) 5 7).idx 0 - ((VoxelUtils.mk ⟨2, 3, 4⟩).toLowerCorner
        ((VoxelUtils.mk ⟨2, 3, 4⟩).toGridPoint ⟨-4, 5, 7⟩)).idx 0 =
      if (Point3.mk (-4) 5 7).idx 0 < 0 ∧
          (VoxelUtils.mk ⟨2, 3, 4⟩).cell_size.idx 0 ∣ (Point3.mk (-4) 5 7).idx 0
      then (VoxelUtils.mk ⟨2, 3, 4⟩).cell_size.idx 0
      else (Point3.mk (-4) 5 7).idx 0 % (VoxelUtils.mk ⟨2, 3, 4⟩).cell_size.idx 0) ∧
    (((VoxelUtils.mk ⟨2, 3, 4⟩).toLowerCorner
        ((VoxelUtils.mk ⟨2, 3, 4⟩).toGridPoint ⟨-4, 5, 7⟩)).idx 0 ≤
      (Point3.mk (-4) 5 7).idx 0) ∧
    ((Point3.mk (-4) 5 7).idx 0 - ((VoxelUtils.mk ⟨2, 3, 4⟩).toLowerCorner
        ((VoxelUtils.mk ⟨2, 3, 4⟩).toGridPoint ⟨-4, 5, 7⟩)).idx 0 ≤
      (VoxelUtils.mk ⟨2, 3, 4⟩).cell_size.idx 0) := by
  refine ⟨⟨by decide, by decide⟩, ?_⟩
  exact gridRoundTrip_characterization (VoxelUtils.mk ⟨2, 3, 4⟩) ⟨-1, 2, 0⟩ ⟨-4, 5, 7⟩ 0
    (by decide) (by decide)

/-! ## Polygon region algebra

The polygon library (`utils/polygon.h`) is repository code outside the
verified sources.  Modelled from the spec (§3): a `Polygons` object denotes
a planar region, `offset(δ)` is the signed Minkowski sum with a disk,
`applyMatrix` an affine map applied pointwise. -/

/-- A 2D point with real coordinates. -/
abbrev Pt : Type := ℝ × ℝ

/-- Modelled from the spec: the planar region denoted by a `Polygons` object. -/
abbrev Poly : Type := Set Pt

/-- Modelled from the spec: `Polygons::unionPolygons` / `add` region semantics. -/
def polyUnion (s t : Poly) : Poly := s ∪ t

/-- Modelled from the spec: `Polygons::intersection`. -/
def polyInter (s t : Poly) : Poly := s ∩ t

/-- Modelled from the spec: `Polygons::difference`. -/
def polyDiff (s t : Poly) : Poly := s \ t

/-- Modelled from the spec: `Polygons::xorPolygons` (symmetric difference). -/
def polyXor (s t : Poly) : Poly := (s \ t) ∪ (t \ s)

/-- Modelled from the spec: `Polygons::translate`. -/
def polyTranslate (v : Pt) (s : Poly) : Poly :=
  (fun p => (p.1 + v.1, p.2 + v.2)) '' s

/-- Membership of `q` in the closed disk of radius `r` around `p`
(squared Euclidean metric, radicals avoided). -/
def inDisk (q p : Pt) (r : ℝ) : Prop :=
  (q.1 - p.1) ^ 2 + (q.2 - p.2) ^ 2 ≤ r ^ 2

/-- Modelled from the spec: Minkowski sum with the closed disk of radius `r`. -/
def polyDilate (r : ℝ) (s : Poly) : Poly := {q | ∃ p ∈ s, inDisk q p r}

/-- Modelled from the spec: morphological erosion by the closed disk of radius `r`. -/
def polyErode (r : ℝ) (s : Poly) : Poly := {q | ∀ p, inDisk p q r → p ∈ s}

/-- Modelled from the spec: `Polygons::offset(δ)`, dilation for `δ ≥ 0` and
erosion for `δ < 0`. -/
def polyOffset (d : ℝ) (s : Poly) : Poly :=
  if d < 0 then polyErode (-d) s else polyDilate d s

/-- Morphological close with radius `r`: `offset(r)` then `offset(−r)`,
as in `computeLayerRegions` (InterlockingGenerator.cpp line 161). -/
def polyClose (r : ℝ) (s : Poly) : Poly := polyOffset (-r) (polyOffset r s)

/-- Modelled from the spec: `Polygons::applyMatrix`, the map applied to every
point (idealised, without integer rounding). -/
def applyMatrix (f : Pt → Pt) (s : Poly) : Poly := f '' s

/-- Modelled from the spec: `PointMatrix(angle_degrees)` applied to a point,
the counterclockwise rotation by the angle.  Idealised without integer
rounding, hence (like the trigonometric functions) carrying no executable
code; it only ever occurs inside region predicates. -/
noncomputable def pmApply (angleDeg : ℝ) (p : Pt) : Pt :=
  (Real.cos (angleDeg * Real.pi / 180) * p.1 - Real.sin (angleDeg * Real.pi / 180) * p.2,
   Real.sin (angleDeg * Real.pi / 180) * p.1 + Real.cos (angleDeg * Real.pi / 180) * p.2)

/-- Modelled from the spec: `PointMatrix::inverse()` applied to a point
(rotation by the opposite angle). -/
noncomputable def pmInverseApply (angleDeg : ℝ) (p : Pt) : Pt :=
  pmApply (-angleDeg) p

lemma pmInverseApply_pmApply (θ : ℝ) (p : Pt) :
    pmInverseApply θ (pmApply θ p) = p := by
  unfold pmInverseApply pmApply
  simp only [neg_mul, neg_div, Real.cos_neg, Real.sin_neg]
  have hpyth := Real.sin_sq_add_cos_sq (θ * Real.pi / 180)
  obtain ⟨px, py⟩ := p
  simp only [Prod.mk.injEq]
  constructor
  · linear_combination px * hpyth
  · linear_combination py * hpyth

lemma pmApply_pmInverseApply (θ : ℝ) (p : Pt) :
    pmApply θ (pmInverseApply θ p) = p := by
  unfold pmInverseApply pmApply
  simp only [neg_mul, neg_div, Real.cos_neg, Real.sin_neg]
  have hpyth := Real.sin_sq_add_cos_sq (θ * Real.pi / 180)
  obtain ⟨px, py⟩ := p
  simp only [Prod.mk.injEq]
  constructor
  · linear_combination px * hpyth
  · linear_combination py * hpyth

lemma applyMatrix_inv_applyMatrix (θ : ℝ) (s : Poly) :
    applyMatrix (pmInverseApply θ) (applyMatrix (pmApply θ) s) = s := by
  unfold applyMatrix
  rw [← Set.image_comp]
  have : (pmInverseApply θ ∘ pmApply θ) = id := by
    funext p
    exact pmInverseApply_pmApply θ p
  rw [this, Set.image_id]

lemma pmInverseApply_injective (θ : ℝ) : Function.Injective (pmInverseApply θ) := by
  intro p q h
  have hp := pmApply_pmInverseApply θ p
  have hq := pmApply_pmInverseApply θ q
  rw [← hp, ← hq, h]

lemma inDisk_self (p : Pt) (r : ℝ) : inDisk p p r := by
  unfold inDisk
  simp
  positivity

/-- The closing is extensive: a region is contained in its morphological close. -/
lemma subset_polyClose (r : ℝ) (hr : 0 ≤ r) (s : Poly) : s ⊆ polyClose r s := by
  intro p hp
  unfold polyClose polyOffset
  rcases eq_or_lt_of_le hr with hrz | hrpos
  · have h1 : ¬ (r : ℝ) < 0 := not_lt.mpr hr
    have h2 : ¬ (-r : ℝ) < 0 := by rw [← hrz]; norm_num
    rw [if_neg h1, if_neg h2]
    exact ⟨p, ⟨p, hp, inDisk_self p r⟩, inDisk_self p (-r)⟩
  · have h1 : ¬ (r : ℝ) < 0 := not_lt.mpr hr
    have h2 : (-r : ℝ) < 0 := by linarith
    rw [if_neg h1, if_pos h2]
    intro a ha
    rw [neg_neg] at ha
    exact ⟨p, hp, ha⟩

/-- The empty region is a fixed point of dilation. -/
lemma polyDilate_empty (r : ℝ) : polyDilate r (∅ : Poly) = ∅ := by
  unfold polyDilate
  simp

/-- The empty region is a fixed point of erosion by a nonnegative radius. -/
lemma polyErode_empty (r : ℝ) : polyErode r (∅ : Poly) = ∅ := by
  unfold polyErode
  ext q
  simp only [Set.mem_setOf_eq, Set.mem_empty_iff_false, iff_false, not_forall]
  exact ⟨q, inDisk_self q r, fun h => h⟩

/-- The morphological close of the empty region is empty. -/
lemma polyClose_empty (r : ℝ) : polyClose r (∅ : Poly) = ∅ := by
  unfold polyClose polyOffset
  by_cases h1 : (r : ℝ) < 0 <;> by_cases h2 : (-r : ℝ) < 0 <;>
    simp [h1, h2, polyDilate_empty, polyErode_empty]

/-- Zero area of a region: Lebesgue measure zero in the plane. -/
def ZeroArea (s : Poly) : Prop := MeasureTheory.volume s = 0

/-! ## Microstructure template (InterlockingGenerator.cpp lines 167-196) -/

/-- Region semantics (even-odd fill) of the four-corner quad emitted in
`generateMicrostructure`: the filled axis-aligned rectangle between the
`offset` corner and `offset + area_size`, regardless of traversal
orientation. -/
def rectRegion (o sz : Pt) : Poly :=
  Set.uIcc o.1 (o.1 + sz.1) ×ˢ Set.uIcc o.2 (o.2 + sz.2)

/-- The x/y swap applied to every point of every polygon
(InterlockingGenerator.cpp lines 186-195). -/
def transposePoly (s : Poly) : Poly := (fun p => (p.2, p.1)) '' s

/-- The local `middle = cell_size.x * beam_widths[0] / beam_w_sum`
(InterlockingGenerator.cpp line 172), with C++ truncating division. -/
def microMiddle (beam_widths : ℤ × ℤ) (cell_size : Point3) : ℤ :=
  Int.tdiv (cell_size.x * beam_widths.1) (beam_widths.1 + beam_widths.2)

/-- The local `width[2] = { middle, cell_size.x - middle }`
(InterlockingGenerator.cpp line 173). -/
def microWidth (beam_widths : ℤ × ℤ) (cell_size : Point3) (m : Bool) : ℤ :=
  if m then cell_size.x - microMiddle beam_widths cell_size
  else microMiddle beam_widths cell_size

/-- The parity-0 cell polygon for one mesh: the quad at
`offset = (mesh ? middle : 0, 0)` of size `(width[mesh], cell_size.y)`
(InterlockingGenerator.cpp lines 174-184). -/
def microBase (beam_widths : ℤ × ℤ) (cell_size : Point3) (m : Bool) : Poly :=
  rectRegion
    (if m then ((microMiddle beam_widths cell_size : ℝ), 0) else (0, 0))
    ((microWidth beam_widths cell_size m : ℝ), (cell_size.y : ℝ))

/-- `InterlockingGenerator::generateMicrostructure`
(InterlockingGenerator.cpp lines 167-196).  Parity index `false` is table
row 0 (even bands), `true` row 1 (the x/y transpose); mesh index `false`
is mesh 0. -/
def generateMicrostructure (beam_widths : ℤ × ℤ) (cell_size : Point3) :
    Bool → Bool → Poly :=
  fun parity m =>
    if parity then transposePoly (microBase beam_widths cell_size m)
    else microBase beam_widths cell_size m

lemma transposePoly_union (s t : Poly) :
    transposePoly (s ∪ t) = transposePoly s ∪ transposePoly t := by
  unfold transposePoly
  exact Set.image_union _ s t

lemma transposePoly_inter (s t : Poly) :
    transposePoly (s ∩ t) = transposePoly s ∩ transposePoly t := by
  unfold transposePoly
  refine Set.image_inter ?_
  intro p q h
  have h1 : p.2 = q.2 := congrArg Prod.fst h
  have h2 : p.1 = q.1 := congrArg Prod.snd h
  exact Prod.ext h2 h1

lemma transposePoly_prod (A B : Set ℝ) :
    transposePoly (A ×ˢ B) = B ×ˢ A := by
  unfold transposePoly
  ext ⟨qx, qy⟩
  constructor
  · rintro ⟨⟨px, py⟩, ⟨hpx, hpy⟩, heq⟩
    obtain ⟨h1, h2⟩ := Prod.mk.injEq .. ▸ heq
    simp only [Prod.mk.injEq] at heq
    exact ⟨heq.1 ▸ hpy, heq.2 ▸ hpx⟩
  · rintro ⟨hqx, hqy⟩
    exact ⟨(qy, qx), ⟨hqy, hqx⟩, rfl⟩

/-! ### Claim C6 -/

lemma microBase_eval (bw : ℤ × ℤ) (cs : Point3)
    (h0 : 0 ≤ bw.1) (h1 : 0 ≤ bw.2) (hsum : 0 < bw.1 + bw.2)
    (hx : cs.x = bw.1 + bw.2) (hy : cs.y = cs.x) :
    microBase bw cs false = Set.Icc (0:ℝ) ((bw.1 : ℝ)) ×ˢ Set.Icc (0:ℝ) ((cs.y : ℝ)) ∧
    microBase bw cs true =
      Set.Icc ((bw.1 : ℝ)) ((cs.x : ℝ)) ×ˢ Set.Icc (0:ℝ) ((cs.y : ℝ)) := by
  have hmid : microMiddle bw cs = bw.1 := by
    unfold microMiddle
    rw [hx]
    exact Int.mul_tdiv_cancel_left bw.1 (by omega)
  have hw1 : (0:ℝ) ≤ (bw.1 : ℝ) := by exact_mod_cast h0
  have hwx : ((bw.1 : ℝ)) ≤ ((cs.x : ℝ)) := by exact_mod_cast (by omega : bw.1 ≤ cs.x)
  have hcy : (0:ℝ) ≤ ((cs.y : ℝ)) := by exact_mod_cast (by omega : (0:ℤ) ≤ cs.y)
  constructor
  · unfold microBase microWidth rectRegion
    rw [hmid]
    simp only [if_false, Bool.false_eq_true, zero_add]
    rw [Set.uIcc_of_le hw1, Set.uIcc_of_le hcy]
  · unfold microBase microWidth rectRegion
    rw [hmid]
    simp only [if_true, zero_add]
    have hend : ((bw.1 : ℝ)) + (((cs.x - bw.1 : ℤ)) : ℝ) = ((cs.x : ℝ)) := by
      push_cast
      ring
    rw [hend, Set.uIcc_of_le hwx, Set.uIcc_of_le hcy]

lemma volume_vsegment (x : ℝ) (A : Set ℝ) :
    MeasureTheory.volume (({x} : Set ℝ) ×ˢ A) = 0 := by
  rw [MeasureTheory.Measure.volume_eq_prod, MeasureTheory.Measure.prod_prod,
    Real.volume_singleton, zero_mul]

lemma volume_hsegment (x : ℝ) (A : Set ℝ) :
    MeasureTheory.volume (A ×ˢ ({x} : Set ℝ)) = 0 := by
  rw [MeasureTheory.Measure.volume_eq_prod, MeasureTheory.Measure.prod_prod,
    Real.volume_singleton, mul_zero]

/-- C6 (amended): with both beam widths nonnegative, their sum positive, and
the cell sizes tied as the per-pair construction ties them
(`cell_size.x = cell_size.y = beam_widths[0] + beam_widths[1]`), the template
table is a partition of the cell square for both parities — union equal to
`[0, cell_size.x] × [0, cell_size.y]`, intersection of zero area — with the
split at `middle = cell_size.x · beam_widths[0] / (beam_widths[0] + beam_widths[1])`
and parity-1 templates the x/y transpose of parity-0 templates. -/
theorem template_partition (bw : ℤ × ℤ) (cs : Point3) (parity m : Bool)
    (h0 : 0 ≤ bw.1) (h1 : 0 ≤ bw.2) (hsum : 0 < bw.1 + bw.2)
    (hx : cs.x = bw.1 + bw.2) (hy : cs.y = cs.x) :
    polyUnion (generateMicrostructure bw cs parity false)
        (generateMicrostructure bw cs parity true)
      = Set.Icc (0:ℝ) ((cs.x : ℝ)) ×ˢ Set.Icc (0:ℝ) ((cs.y : ℝ)) ∧
    ZeroArea (polyInter (generateMicrostructure bw cs parity false)
        (generateMicrostructure bw cs parity true)) ∧
    microBase bw cs false =
      Set.Icc (0:ℝ) ((microMiddle bw cs : ℝ)) ×ˢ Set.Icc (0:ℝ) ((cs.y : ℝ)) ∧
    generateMicrostructure bw cs true m =
      transposePoly (generateMicrostructure bw cs false m) := by
  obtain ⟨hff, hft⟩ := microBase_eval bw cs h0 h1 hsum hx hy
  have hmid : microMiddle bw cs = bw.1 := by
    unfold microMiddle
    rw [hx]
    exact Int.mul_tdiv_cancel_left bw.1 (by omega)
  have hw1 : (0:ℝ) ≤ (bw.1 : ℝ) := by exact_mod_cast h0
  have hwx : ((bw.1 : ℝ)) ≤ ((cs.x : ℝ)) := by exact_mod_cast (by omega : bw.1 ≤ cs.x)
  have hxyR : ((cs.y : ℝ)) = ((cs.x : ℝ)) := by exact_mod_cast hy
  have hunion : Set.Icc (0:ℝ) ((bw.1 : ℝ)) ∪ Set.Icc ((bw.1 : ℝ)) ((cs.x : ℝ))
      = Set.Icc (0:ℝ) ((cs.x : ℝ)) := Set.Icc_union_Icc_eq_Icc hw1 hwx
  have hinter : Set.Icc (0:ℝ) ((bw.1 : ℝ)) ∩ Set.Icc ((bw.1 : ℝ)) ((cs.x : ℝ))
      = ({(bw.1 : ℝ)} : Set ℝ) := by
    rw [Set.Icc_inter_Icc]
    rw [max_eq_right hw1, min_eq_left hwx, Set.Icc_self]
  refine ⟨?_, ?_, by rw [hff, hmid], by cases m <;> rfl⟩
  · cases parity
    · show microBase bw cs false ∪ microBase bw cs true = _
      rw [hff, hft, ← Set.union_prod, hunion]
    · show transposePoly (microBase bw cs false) ∪ transposePoly (microBase bw cs true) = _
      rw [hff, hft, transposePoly_prod, transposePoly_prod, ← Set.prod_union, hunion,
        hxyR]
  · cases parity
    · show ZeroArea (microBase bw cs false ∩ microBase bw cs true)
      rw [hff, hft, Set.prod_inter_prod, hinter, Set.inter_self]
      exact volume_vsegment _ _
    · show ZeroArea (transposePoly (microBase bw cs false) ∩
        transposePoly (microBase bw cs true))
      rw [hff, hft, transposePoly_prod, transposePoly_prod, Set.prod_inter_prod,
        hinter, Set.inter_self]
      exact volume_hsegment _ _

/-- Witness for `template_partition` at beam widths (1,1), cell size (2,2,4),
parity 0, mesh 0. -/
theorem template_partition_witness :
    ((0:ℤ) ≤ ((1:ℤ), (1:ℤ)).1 ∧ (0:ℤ) ≤ ((1:ℤ), (1:ℤ)).2 ∧
      (0:ℤ) < ((1:ℤ), (1:ℤ)).1 + ((1:ℤ), (1:ℤ)).2 ∧
      (Point3.mk 2 2 4).x = ((1:ℤ), (1:ℤ)).1 + ((1:ℤ), (1:ℤ)).2 ∧
      (Point3.mk 2 2 4).y = (Point3.mk 2 2 4).x) ∧
    (polyUnion (generateMicrostructure (1, 1) ⟨2, 2, 4⟩ false false)
        (generateMicrostructure (1, 1) ⟨2, 2, 4⟩ false true)
      = Set.Icc (0:ℝ) (((Point3.mk 2 2 4).x : ℝ)) ×ˢ
          Set.Icc (0:ℝ) (((Point3.mk 2 2 4).y : ℝ)) ∧
    ZeroArea (polyInter (generateMicrostructure (1, 1) ⟨2, 2, 4⟩ false false)
        (generateMicrostructure (1, 1) ⟨2, 2, 4⟩ false true)) ∧
    microBase (1, 1) ⟨2, 2, 4⟩ false =
      Set.Icc (0:ℝ) ((microMiddle (1, 1) ⟨2, 2, 4⟩ : ℝ)) ×ˢ
        Set.Icc (0:ℝ) (((Point3.mk 2 2 4).y : ℝ)) ∧
    generateMicrostructure (1, 1) ⟨2, 2, 4⟩ true false =
      transposePoly (generateMicrostructure (1, 1) ⟨2, 2, 4⟩ false false)) :=
  ⟨⟨by decide, by decide, by decide, by decide, by decide⟩,
   template_partition (1, 1) ⟨2, 2, 4⟩ false false
     (by decide) (by decide) (by decide) (by decide) (by decide)⟩

lemma microBase_cex_false :
    microBase (-1, 2) ⟨1, 1, 4⟩ false = Set.Icc (-1:ℝ) 0 ×ˢ Set.Icc (0:ℝ) 1 := by
  have e1 : microMiddle (-1, 2) ⟨1, 1, 4⟩ = -1 := by decide
  unfold microBase microWidth rectRegion
  rw [e1]
  simp only [if_false, Bool.false_eq_true, zero_add]
  norm_num

lemma microBase_cex_true :
    microBase (-1, 2) ⟨1, 1, 4⟩ true = Set.Icc (-1:ℝ) 1 ×ˢ Set.Icc (0:ℝ) 1 := by
  have e1 : microMiddle (-1, 2) ⟨1, 1, 4⟩ = -1 := by decide
  unfold microBase microWidth rectRegion
  rw [e1]
  simp only [if_true, zero_add]
  norm_num

/-- C6 counterexample: at beam widths (−1, 2) — sum positive, cell sizes tied
exactly as the per-pair construction ties them — the parity-0 templates are
not a partition of the cell square: their union strictly exceeds
`[0,1] × [0,1]` (it contains (−1,0)) and their intersection has area 1. -/
theorem template_partition_cex :
    ((0:ℤ) < (-1) + 2 ∧ (Point3.mk 1 1 4).x = (-1) + 2 ∧
      (Point3.mk 1 1 4).y = (Point3.mk 1 1 4).x) ∧
    polyUnion (generateMicrostructure (-1, 2) ⟨1, 1, 4⟩ false false)
        (generateMicrostructure (-1, 2) ⟨1, 1, 4⟩ false true)
      ≠ Set.Icc (0:ℝ) (((Point3.mk 1 1 4).x : ℝ)) ×ˢ
          Set.Icc (0:ℝ) (((Point3.mk 1 1 4).y : ℝ)) ∧
    ¬ ZeroArea (polyInter (generateMicrostructure (-1, 2) ⟨1, 1, 4⟩ false false)
        (generateMicrostructure (-1, 2) ⟨1, 1, 4⟩ false true)) := by
  have hbf : generateMicrostructure (-1, 2) ⟨1, 1, 4⟩ false false =
      Set.Icc (-1:ℝ) 0 ×ˢ Set.Icc (0:ℝ) 1 := microBase_cex_false
  have hbt : generateMicrostructure (-1, 2) ⟨1, 1, 4⟩ false true =
      Set.Icc (-1:ℝ) 1 ×ˢ Set.Icc (0:ℝ) 1 := microBase_cex_true
  refine ⟨⟨by decide, by decide, by decide⟩, ?_, ?_⟩
  · intro h
    rw [hbf, hbt] at h
    have hmem : ((-1:ℝ), (0:ℝ)) ∈
        (Set.Icc (-1:ℝ) 0 ×ˢ Set.Icc (0:ℝ) 1 : Poly) ∪
          Set.Icc (-1:ℝ) 1 ×ˢ Set.Icc (0:ℝ) 1 := by
      left
      constructor <;> simp
    rw [show (polyUnion (Set.Icc (-1:ℝ) 0 ×ˢ Set.Icc (0:ℝ) 1)
        (Set.Icc (-1:ℝ) 1 ×ˢ Set.Icc (0:ℝ) 1) : Poly) =
        Set.Icc (-1:ℝ) 0 ×ˢ Set.Icc (0:ℝ) 1 ∪
          Set.Icc (-1:ℝ) 1 ×ˢ Set.Icc (0:ℝ) 1 from rfl] at h
    rw [h] at hmem
    obtain ⟨hx1, -⟩ := hmem
    have hcontra := hx1.1
    norm_num at hcontra
  · intro h
    unfold ZeroArea at h
    rw [hbf, hbt] at h
    rw [show (polyInter (Set.Icc (-1:ℝ) 0 ×ˢ Set.Icc (0:ℝ) 1)
        (Set.Icc (-1:ℝ) 1 ×ˢ Set.Icc (0:ℝ) 1) : Poly) =
        (Set.Icc (-1:ℝ) 0 ×ˢ Set.Icc (0:ℝ) 1) ∩
          (Set.Icc (-1:ℝ) 1 ×ˢ Set.Icc (0:ℝ) 1) from rfl] at h
    rw [Set.prod_inter_prod, Set.Icc_inter_Icc, Set.inter_self] at h
    rw [MeasureTheory.Measure.volume_eq_prod, MeasureTheory.Measure.prod_prod,
      Real.volume_Icc, Real.volume_Icc] at h
    norm_num at h

/-! ## Sliced meshes (data model of `slicer.h`, as used by the generator) -/

/-- `SlicerLayer`: a z coordinate and the layer outlines. -/
structure SlicerLayer where
  z : ℤ
  polygons : Poly

/-- Modelled from the spec: an axis-aligned 3D bounding box (`AABB3D`),
held by the underlying mesh and never mutated by the generator. -/
structure AABB3D where
  minp : Point3
  maxp : Point3
deriving DecidableEq

/-- Modelled from the spec: `AABB3D::offset(coord_t)`, inflating the box. -/
def AABB3D.offset (bb : AABB3D) (g : ℤ) : AABB3D :=
  ⟨⟨bb.minp.x - g, bb.minp.y - g, bb.minp.z - g⟩,
   ⟨bb.maxp.x + g, bb.maxp.y + g, bb.maxp.z + g⟩⟩

/-- Modelled from the spec: `AABB3D::hit`, the inclusive overlap test. -/
def AABB3D.hit (a b : AABB3D) : Bool :=
  decide (a.minp.x ≤ b.maxp.x ∧ b.minp.x ≤ a.maxp.x ∧
    a.minp.y ≤ b.maxp.y ∧ b.minp.y ≤ a.maxp.y ∧
    a.minp.z ≤ b.maxp.z ∧ b.minp.z ≤ a.maxp.z)

/-- A `Slicer` together with the mesh attributes the generator reads:
the layer stack, the `wall_0_extruder_nr` extruder number, the
`wall_line_width_0` setting and the mesh bounding box. -/
structure Slicer where
  layers : List SlicerLayer
  extruder_nr : ℕ
  wall_line_width_0 : ℤ
  aabb : AABB3D

instance : Inhabited Slicer :=
  ⟨⟨[], 0, 0, ⟨⟨0, 0, 0⟩, ⟨0, 0, 0⟩⟩⟩⟩

/-- The polygons of layer `n`, empty beyond the stack (the code never reads
beyond the stack; totalising with `∅` keeps statements uniform). -/
def Slicer.layerPoly (m : Slicer) (n : ℕ) : Poly :=
  match m.layers.get? n with
  | some L => L.polygons
  | none => ∅

/-- `InterlockingGenerator::ignored_gap = 100` (InterlockingGenerator.h). -/
def ignored_gap : ℤ := 100

/-! ## Layer regions (`computeLayerRegions`, InterlockingGenerator.cpp 145-165) -/

/-- The combined outlines accumulated at layer `n` by the
`for (Slicer* mesh : {&mesh_a, &mesh_b})` loop.  Note the `break`: when
layer `n` is beyond mesh a's stack the loop exits before reading mesh b,
even if mesh b has that layer. -/
def combinedLayer (a b : Slicer) (n : ℕ) : Poly :=
  if n < a.layers.length then
    polyUnion (a.layerPoly n) (if n < b.layers.length then b.layerPoly n else ∅)
  else ∅

/-- `InterlockingGenerator::computeLayerRegions`
(InterlockingGenerator.cpp lines 145-165): per layer, the combined outlines,
morphologically closed with `ignored_gap`, then rotated. -/
def computeLayerRegions (θ : ℝ) (a b : Slicer) : List Poly :=
  (List.range (max a.layers.length b.layers.length + 1)).map fun n =>
    applyMatrix (pmApply θ)
      (polyOffset (-((ignored_gap : ℤ) : ℝ))
        (polyOffset ((ignored_gap : ℤ) : ℝ) (combinedLayer a b n)))

/-! ## Applying the microstructure
(`applyMicrostructureToOutlines`, InterlockingGenerator.cpp 198-250) -/

/-- Conversion of a `coord_t` to the C++ `unsigned int` initialiser of
`layer_nr` (InterlockingGenerator.cpp line 212): reduction modulo 2^32. -/
def uint32wrap (z : ℤ) : ℤ := z % 4294967296

/-- The `layer_nr` values visited by
`for (unsigned int layer_nr = start; layer_nr < stop1 && layer_nr < maxL;
layer_nr += blc)` for a nonnegative start below 2^32 (as produced by
`uint32wrap`), positive step `blc` and bounds `stop1`, `maxL`. -/
def stampLayers (start stop1 : ℤ) (maxL blc : ℕ) : List ℤ :=
  (List.range (((min stop1 (maxL : ℤ) - start).toNat + blc - 1) / blc)).map
    fun i => start + (i : ℤ) * blc

/-- The contribution of a single contact cell `g` to the accumulator
`structure_per_layer[m][b]` (InterlockingGenerator.cpp lines 207-219):
the cell-area template of the band parity, translated to the cell's lower
corner, for every visited `layer_nr` whose band `layer_nr / blc` is `b`. -/
def cellStructure (cs : Point3) (blc maxL : ℕ) (tmpl : Bool → Bool → Poly)
    (g : GridPoint3) (m : Bool) (b : ℕ) : Poly :=
  ⋃ k ∈ {k : ℤ |
      k ∈ stampLayers (uint32wrap ((VoxelUtils.mk cs).toLowerCorner g).z)
        (((VoxelUtils.mk cs).toLowerCorner g).z + cs.z) maxL blc ∧
      Int.tdiv k (blc : ℤ) = (b : ℤ)},
    polyTranslate ((((VoxelUtils.mk cs).toLowerCorner g).x : ℝ),
        (((VoxelUtils.mk cs).toLowerCorner g).y : ℝ))
      (tmpl (decide ((Int.tdiv k (blc : ℤ)) % 2 = 1)) m)

/-- `structure_per_layer[m][b]` after the per-cell stamping loop
(InterlockingGenerator.cpp lines 203-219), as a union over the cell set. -/
def structRaw (cs : Point3) (blc maxL : ℕ) (cells : Finset GridPoint3)
    (tmpl : Bool → Bool → Poly) (m : Bool) (b : ℕ) : Poly :=
  ⋃ g ∈ (cells : Set GridPoint3), cellStructure cs blc maxL tmpl g m b

/-- `structure_per_layer[m][b]` after the post-processing loop
(InterlockingGenerator.cpp lines 221-234): union (identity on regions),
intersection with `layer_regions[b]` unless `air_filtering`, then the
inverse rotation. -/
def structPost (θ : ℝ) (air_filtering : Bool) (regions : List Poly)
    (cs : Point3) (blc maxL : ℕ) (cells : Finset GridPoint3)
    (tmpl : Bool → Bool → Poly) (m : Bool) (b : ℕ) : Poly :=
  applyMatrix (pmInverseApply θ)
    (if air_filtering then structRaw cs blc maxL cells tmpl m b
     else polyInter (regions.getD b ∅) (structRaw cs blc maxL cells tmpl m b))

/-- The per-layer rewrite loop body (InterlockingGenerator.cpp lines 239-248)
over a layer stack, tracking the running layer index. -/
def rewriteLayersAux (own other : ℕ → Poly) (blc : ℕ) :
    ℕ → List SlicerLayer → List SlicerLayer
  | _, [] => []
  | i, L :: rest =>
      ⟨L.z, polyDiff (polyUnion L.polygons (own (i / blc))) (other (i / blc))⟩ ::
        rewriteLayersAux own other blc (i + 1) rest

/-- The final rewrite of one mesh's layers: every layer `n < layers.length`
becomes `(polygons ∪ own (n / blc)) − other (n / blc)`; the
`if (layer_nr >= mesh->layers.size()) break;` bound means exactly the
existing layers are rewritten. -/
def rewriteLayers (own other : ℕ → Poly) (blc : ℕ)
    (layers : List SlicerLayer) : List SlicerLayer :=
  rewriteLayersAux own other blc 0 layers

/-- `InterlockingGenerator::applyMicrostructureToOutlines`
(InterlockingGenerator.cpp lines 198-250), producing the two rewritten
meshes.  Mesh attributes other than the layer stack are untouched. -/
def applyMicrostructureToOutlines (θ : ℝ) (cs : Point3) (blc : ℕ)
    (air_filtering : Bool) (a b : Slicer) (cells : Finset GridPoint3)
    (tmpl : Bool → Bool → Poly) (regions : List Poly) : Slicer × Slicer :=
  let maxL := max a.layers.length b.layers.length
  let post := structPost θ air_filtering regions cs blc maxL cells tmpl
  ({a with layers := rewriteLayers (post false) (post true) blc a.layers},
   {b with layers := rewriteLayers (post true) (post false) blc b.layers})

lemma rewriteLayersAux_length (own other : ℕ → Poly) (blc : ℕ)
    (i : ℕ) (ls : List SlicerLayer) :
    (rewriteLayersAux own other blc i ls).length = ls.length := by
  induction ls generalizing i with
  | nil => rfl
  | cons L rest ih =>
      simp [rewriteLayersAux, ih]

lemma rewriteLayersAux_get? (own other : ℕ → Poly) (blc : ℕ)
    (i n : ℕ) (ls : List SlicerLayer) :
    (rewriteLayersAux own other blc i ls).get? n =
      (ls.get? n).map fun L =>
        ⟨L.z, polyDiff (polyUnion L.polygons (own ((i + n) / blc)))
          (other ((i + n) / blc))⟩ := by
  induction ls generalizing i n with
  | nil => simp [rewriteLayersAux]
  | cons L rest ih =>
      cases n with
      | zero => simp [rewriteLayersAux]
      | succ k =>
          simp only [rewriteLayersAux, List.get?_cons_succ, ih (i + 1) k]
          have : i + 1 + k = i + (k + 1) := by omega
          rw [this]

/-- What the final rewrite does to mesh a's layer `n`, totalised with `∅`
beyond the stack. -/
lemma apply_layerPoly_a (θ : ℝ) (cs : Point3) (blc : ℕ) (air : Bool)
    (a b : Slicer) (cells : Finset GridPoint3) (tmpl : Bool → Bool → Poly)
    (regions : List Poly) (n : ℕ) :
    (applyMicrostructureToOutlines θ cs blc air a b cells tmpl regions).1.layerPoly n =
      if n < a.layers.length then
        polyDiff
          (polyUnion (a.layerPoly n)
            (structPost θ air regions cs blc (max a.layers.length b.layers.length)
              cells tmpl false (n / blc)))
          (structPost θ air regions cs blc (max a.layers.length b.layers.length)
            cells tmpl true (n / blc))
      else ∅ := by
  unfold applyMicrostructureToOutlines Slicer.layerPoly rewriteLayers
  simp only [rewriteLayersAux_get?, Nat.zero_add]
  rcases lt_or_le n a.layers.length with h | h
  · rw [List.get?_eq_get h]
    simp only [Option.map_some]
    rw [if_pos h]
    simp [Slicer.layerPoly, List.get?_eq_get h]
  · rw [List.get?_eq_none.mpr h]
    simp [h.not_lt]

/-- What the final rewrite does to mesh b's layer `n`, totalised with `∅`
beyond the stack. -/
lemma apply_layerPoly_b (θ : ℝ) (cs : Point3) (blc : ℕ) (air : Bool)
    (a b : Slicer) (cells : Finset GridPoint3) (tmpl : Bool → Bool → Poly)
    (regions : List Poly) (n : ℕ) :
    (applyMicrostructureToOutlines θ cs blc air a b cells tmpl regions).2.layerPoly n =
      if n < b.layers.length then
        polyDiff
          (polyUnion (b.layerPoly n)
            (structPost θ air regions cs blc (max a.layers.length b.layers.length)
              cells tmpl true (n / blc)))
          (structPost θ air regions cs blc (max a.layers.length b.layers.length)
            cells tmpl false (n / blc))
      else ∅ := by
  unfold applyMicrostructureToOutlines Slicer.layerPoly rewriteLayers
  simp only [rewriteLayersAux_get?, Nat.zero_add]
  rcases lt_or_le n b.layers.length with h | h
  · rw [List.get?_eq_get h]
    simp only [Option.map_some]
    rw [if_pos h]
    simp [Slicer.layerPoly, List.get?_eq_get h]
  · rw [List.get?_eq_none.mpr h]
    simp [h.not_lt]

/-! ### Claim C2 -/

/-- C2: for each mesh of the pair and each layer `n` the mesh actually has,
the rewritten layer polygons are exactly
`(old ∪ own band structure) − other band structure`, the band structures
being those of band `n / beam_layer_count` after union, optional clipping
and un-rotation (`structPost`). -/
theorem rewrite_formula (θ : ℝ) (cs : Point3) (blc : ℕ) (air : Bool)
    (a b : Slicer) (cells : Finset GridPoint3) (tmpl : Bool → Bool → Poly)
    (regions : List Poly) (m : Bool) (n : ℕ)
    (h : n < (cond m b a).layers.length) :
    (cond m (applyMicrostructureToOutlines θ cs blc air a b cells tmpl regions).2
        (applyMicrostructureToOutlines θ cs blc air a b cells tmpl regions).1).layerPoly n =
      polyDiff
        (polyUnion ((cond m b a).layerPoly n)
          (structPost θ air regions cs blc (max a.layers.length b.layers.length)
            cells tmpl m (n / blc)))
        (structPost θ air regions cs blc (max a.layers.length b.layers.length)
          cells tmpl (!m) (n / blc)) := by
  cases m
  · simp only [Bool.cond_false, Bool.not_false] at h ⊢
    rw [apply_layerPoly_a, if_pos h]
  · simp only [Bool.cond_true, Bool.not_true] at h ⊢
    rw [apply_layerPoly_b, if_pos h]

/-! ### Claim C9 -/

/-- C9: only the layers a mesh actually has are rewritten: the rewrite
preserves each mesh's layer count, indices at or beyond the layer count have
no entry before or after (even when the other mesh is taller), and a mesh
with zero layers is returned unchanged while the other mesh may be tall. -/
theorem frame_layers (θ : ℝ) (cs : Point3) (blc : ℕ) (air : Bool)
    (a b : Slicer) (cells : Finset GridPoint3) (tmpl : Bool → Bool → Poly)
    (regions : List Poly) (n : ℕ) :
    ((applyMicrostructureToOutlines θ cs blc air a b cells tmpl regions).1.layers.length
        = a.layers.length ∧
      (applyMicrostructureToOutlines θ cs blc air a b cells tmpl regions).2.layers.length
        = b.layers.length) ∧
    ((applyMicrostructureToOutlines θ cs blc air a b cells tmpl regions).1.layers.get? n
        = none ↔ a.layers.length ≤ n) ∧
    ((applyMicrostructureToOutlines θ cs blc air a b cells tmpl regions).2.layers.get? n
        = none ↔ b.layers.length ≤ n) ∧
    (applyMicrostructureToOutlines θ cs blc air {a with layers := []} b cells tmpl
        regions).1 = {a with layers := []} ∧
    (applyMicrostructureToOutlines θ cs blc air a {b with layers := []} cells tmpl
        regions).2 = {b with layers := []} := by
  refine ⟨⟨?_, ?_⟩, ?_, ?_, rfl, rfl⟩
  · exact rewriteLayersAux_length _ _ _ _ _
  · exact rewriteLayersAux_length _ _ _ _ _
  · rw [List.get?_eq_none]
    unfold applyMicrostructureToOutlines rewriteLayers
    rw [rewriteLayersAux_length]
  · rw [List.get?_eq_none]
    unfold applyMicrostructureToOutlines rewriteLayers
    rw [rewriteLayersAux_length]

/-! ### Claim C1 -/

/-- Entry `n` of the layer-region list, totalised with `∅`. -/
lemma computeLayerRegions_getD (θ : ℝ) (a b : Slicer) (n : ℕ) :
    (computeLayerRegions θ a b).getD n ∅ =
      if n < max a.layers.length b.layers.length + 1 then
        applyMatrix (pmApply θ)
          (polyOffset (-((ignored_gap : ℤ) : ℝ))
            (polyOffset ((ignored_gap : ℤ) : ℝ) (combinedLayer a b n)))
      else ∅ := by
  unfold computeLayerRegions
  rw [List.getD_eq_getElem?_getD, List.getElem?_map]
  rcases lt_or_le n (max a.layers.length b.layers.length + 1) with h | h
  · rw [List.getElem?_range h]
    simp [h]
  · rw [List.getElem?_eq_none (by simpa using h)]
    simp [h.not_lt]

/-- With `air_filtering = false` and the regions produced by
`computeLayerRegions`, every post-processed band structure stays inside the
morphological close of the combined outlines at the index the code clips
with (the band index itself). -/
lemma structPost_subset_close (θ : ℝ) (a b : Slicer) (cs : Point3)
    (blc maxL : ℕ) (cells : Finset GridPoint3) (tmpl : Bool → Bool → Poly)
    (m : Bool) (bnd : ℕ) :
    structPost θ false (computeLayerRegions θ a b) cs blc maxL cells tmpl m bnd ⊆
      polyClose ((ignored_gap : ℤ) : ℝ) (combinedLayer a b bnd) := by
  unfold structPost
  rw [if_neg (by simp)]
  intro x hx
  obtain ⟨w, hw, rfl⟩ := hx
  obtain ⟨hw1, -⟩ := hw
  rw [computeLayerRegions_getD] at hw1
  rcases lt_or_le bnd (max a.layers.length b.layers.length + 1) with h | h
  · rw [if_pos h] at hw1
    obtain ⟨v, hv, rfl⟩ := hw1
    rw [pmInverseApply_pmApply]
    exact hv
  · rw [if_neg h.not_lt] at hw1
    exact absurd hw1 (Set.not_mem_empty w)

/-- C1 (amended): with `air_filtering = false` (the only value reachable from
the public entry point) and the layer regions of `computeLayerRegions`, for
every layer `n`: the rewritten outlines satisfy
`a' ∪ b' ⊆ (a ∪ b) ∪ close(ignored_gap)` of the combined outlines at index
`n / beam_layer_count` — the index the code actually clips with — and the
rewritten overlap never exceeds the original overlap:
`a' ∩ b' ⊆ a ∩ b` (in particular it has zero area whenever the inputs
overlap with zero area). -/
theorem rewrite_envelope_amended (θ : ℝ) (cs : Point3) (blc : ℕ)
    (a b : Slicer) (cells : Finset GridPoint3) (tmpl : Bool → Bool → Poly)
    (n : ℕ) :
    polyUnion
        ((applyMicrostructureToOutlines θ cs blc false a b cells tmpl
          (computeLayerRegions θ a b)).1.layerPoly n)
        ((applyMicrostructureToOutlines θ cs blc false a b cells tmpl
          (computeLayerRegions θ a b)).2.layerPoly n)
      ⊆ polyUnion (polyUnion (a.layerPoly n) (b.layerPoly n))
          (polyClose ((ignored_gap : ℤ) : ℝ) (combinedLayer a b (n / blc))) ∧
    polyInter
        ((applyMicrostructureToOutlines θ cs blc false a b cells tmpl
          (computeLayerRegions θ a b)).1.layerPoly n)
        ((applyMicrostructureToOutlines θ cs blc false a b cells tmpl
          (computeLayerRegions θ a b)).2.layerPoly n)
      ⊆ polyInter (a.layerPoly n) (b.layerPoly n) := by
  rw [apply_layerPoly_a, apply_layerPoly_b]
  constructor
  · intro x hx
    unfold polyUnion at hx ⊢
    rcases hx with hx | hx
    · by_cases h : n < a.layers.length
      · rw [if_pos h] at hx
        obtain ⟨hx1, -⟩ := hx
        rcases hx1 with hx1 | hx1
        · exact Or.inl (Or.inl hx1)
        · exact Or.inr (structPost_subset_close θ a b cs blc _ cells tmpl false (n / blc) hx1)
      · rw [if_neg h] at hx
        exact absurd hx (Set.not_mem_empty x)
    · by_cases h : n < b.layers.length
      · rw [if_pos h] at hx
        obtain ⟨hx1, -⟩ := hx
        rcases hx1 with hx1 | hx1
        · exact Or.inl (Or.inr hx1)
        · exact Or.inr (structPost_subset_close θ a b cs blc _ cells tmpl true (n / blc) hx1)
      · rw [if_neg h] at hx
        exact absurd hx (Set.not_mem_empty x)
  · intro x hx
    unfold polyInter at hx ⊢
    obtain ⟨hxa, hxb⟩ := hx
    by_cases ha : n < a.layers.length
    · by_cases hb : n < b.layers.length
      · rw [if_pos ha] at hxa
        rw [if_pos hb] at hxb
        obtain ⟨hxa1, hxa2⟩ := hxa
        obtain ⟨hxb1, hxb2⟩ := hxb
        rcases hxa1 with hxa1 | hxa1
        · rcases hxb1 with hxb1 | hxb1
          · exact ⟨hxa1, hxb1⟩
          · exact absurd hxb1 hxa2
        · exact absurd hxa1 hxb2
      · rw [if_neg hb] at hxb
        exact absurd hxb (Set.not_mem_empty x)
    · rw [if_neg ha] at hxa
      exact absurd hxa (Set.not_mem_empty x)

/-! ### Concrete scenes used by counterexamples and failing inputs -/

/-- A 4×4 square at the origin. -/
def cexRect : Poly := rectRegion (0, 0) (4, 4)

/-- A large square centred at the origin, reaching ±10000. -/
def cexBigRect : Poly := rectRegion (-10000, -10000) (20000, 20000)

/-- A degenerate bounding box (irrelevant to the rewrite itself). -/
def cexBB : AABB3D := ⟨⟨0, 0, 0⟩, ⟨0, 0, 0⟩⟩

/-- Single-layer mesh a: one layer holding the 4×4 square. -/
def cexMeshA0 : Slicer := ⟨[⟨0, cexRect⟩], 0, 1, cexBB⟩

/-- Single-layer mesh b: the same square, other extruder. -/
def cexMeshB0 : Slicer := ⟨[⟨0, cexRect⟩], 1, 1, cexBB⟩

/-- Two-layer mesh a: a large bottom layer, an empty top layer. -/
def cexMeshA1 : Slicer := ⟨[⟨0, cexBigRect⟩, ⟨1, ∅⟩], 0, 1, cexBB⟩

/-- Two-layer mesh b: same geometry, other extruder. -/
def cexMeshB1 : Slicer := ⟨[⟨0, cexBigRect⟩, ⟨1, ∅⟩], 1, 1, cexBB⟩

/-- The template table for beam widths (1,1) and cell size (2,2,4). -/
def cexTmpl : Bool → Bool → Poly := generateMicrostructure (1, 1) ⟨2, 2, 4⟩

/-- A single contact cell at the origin. -/
def cexCells1 : Finset GridPoint3 := {⟨0, 0, 0⟩}

/-! ### Evaluation lemmas for the concrete scenes -/

lemma structRaw_empty (cs : Point3) (blc maxL : ℕ) (tmpl : Bool → Bool → Poly)
    (m : Bool) (b : ℕ) :
    structRaw cs blc maxL (∅ : Finset GridPoint3) tmpl m b = ∅ := by
  unfold structRaw
  simp

lemma structPost_rawEmpty (θ : ℝ) (regions : List Poly) (cs : Point3)
    (blc maxL : ℕ) (tmpl : Bool → Bool → Poly) (m : Bool) (b : ℕ) :
    structPost θ false regions cs blc maxL (∅ : Finset GridPoint3) tmpl m b = ∅ := by
  unfold structPost
  rw [if_neg (by simp), structRaw_empty]
  unfold polyInter applyMatrix
  simp

lemma polyUnion_empty_right (s : Poly) : polyUnion s ∅ = s := by
  unfold polyUnion
  simp

lemma polyDiff_empty_right (s : Poly) : polyDiff s ∅ = s := by
  unfold polyDiff
  simp

lemma cexMeshA0_layerPoly : cexMeshA0.layerPoly 0 = cexRect := rfl

lemma cexMeshB0_layerPoly : cexMeshB0.layerPoly 0 = cexRect := rfl

lemma cexRect_eq : cexRect = Set.Icc (0:ℝ) 4 ×ˢ Set.Icc (0:ℝ) 4 := by
  unfold cexRect rectRegion
  norm_num

lemma cexRect_volume : ¬ ZeroArea cexRect := by
  rw [cexRect_eq]
  unfold ZeroArea
  rw [MeasureTheory.Measure.volume_eq_prod, MeasureTheory.Measure.prod_prod,
    Real.volume_Icc]
  norm_num

lemma polyTranslate_zero (s : Poly) : polyTranslate (0, 0) s = s := by
  unfold polyTranslate
  have : (fun p : Pt => (p.1 + 0, p.2 + 0)) = id := by
    funext p
    simp
  rw [this, Set.image_id]

lemma cexTmpl_ff : cexTmpl false false = Set.Icc (0:ℝ) 1 ×ˢ Set.Icc (0:ℝ) 2 := by
  have h := (microBase_eval (1, 1) ⟨2, 2, 4⟩ (by decide) (by decide) (by decide)
    (by decide) (by decide)).1
  unfold cexTmpl generateMicrostructure
  rw [if_neg (by simp)]
  rw [h]
  norm_num

lemma cexTmpl_ft : cexTmpl false true = Set.Icc (1:ℝ) 2 ×ˢ Set.Icc (0:ℝ) 2 := by
  have h := (microBase_eval (1, 1) ⟨2, 2, 4⟩ (by decide) (by decide) (by decide)
    (by decide) (by decide)).2
  unfold cexTmpl generateMicrostructure
  rw [if_neg (by simp)]
  rw [h]
  norm_num

lemma cellStructure_cex (tmpl : Bool → Bool → Poly) (m : Bool) :
    cellStructure ⟨2, 2, 4⟩ 2 2 tmpl ⟨0, 0, 0⟩ m 0 =
      polyTranslate (0, 0) (tmpl false m) := by
  unfold cellStructure
  have hcorner : ((VoxelUtils.mk ⟨2, 2, 4⟩).toLowerCorner ⟨0, 0, 0⟩) =
      (⟨0, 0, 0⟩ : Point3) := by decide
  rw [hcorner]
  have hset : {k : ℤ | k ∈ stampLayers (uint32wrap (Point3.mk 0 0 0).z)
      ((Point3.mk 0 0 0).z + (Point3.mk 2 2 4).z) 2 2 ∧
      Int.tdiv k ((2:ℕ) : ℤ) = ((0:ℕ) : ℤ)} = {(0:ℤ)} := by
    ext k
    have hsl : stampLayers (uint32wrap (Point3.mk 0 0 0).z)
        ((Point3.mk 0 0 0).z + (Point3.mk 2 2 4).z) 2 2 = [(0:ℤ)] := by decide
    rw [hsl]
    simp only [Set.mem_setOf_eq, List.mem_singleton, Set.mem_singleton_iff]
    constructor
    · rintro ⟨rfl, -⟩
      rfl
    · rintro rfl
      exact ⟨rfl, by decide⟩
  rw [hset]
  have : ((0:ℝ), (0:ℝ)) = (((Point3.mk 0 0 0).x : ℝ), ((Point3.mk 0 0 0).y : ℝ)) := by
    norm_num
  rw [this]
  rw [Set.biUnion_singleton]
  norm_num

lemma structRaw_cexCells1 (cs : Point3) (blc maxL : ℕ)
    (tmpl : Bool → Bool → Poly) (m : Bool) (b : ℕ) :
    structRaw cs blc maxL cexCells1 tmpl m b =
      cellStructure cs blc maxL tmpl ⟨0, 0, 0⟩ m b := by
  unfold structRaw cexCells1
  simp

lemma cexBigRect_eq :
    cexBigRect = Set.Icc (-10000:ℝ) 10000 ×ˢ Set.Icc (-10000:ℝ) 10000 := by
  unfold cexBigRect rectRegion
  norm_num

lemma pmApply_mem_cexBigRect (θ : ℝ) (p : Pt) (h1 : |p.1| ≤ 1) (h2 : |p.2| ≤ 1) :
    pmApply θ p ∈ cexBigRect := by
  rw [cexBigRect_eq]
  set c := Real.cos (θ * Real.pi / 180) with hc
  set s := Real.sin (θ * Real.pi / 180) with hs
  have hcb : |c| ≤ 1 := Real.abs_cos_le_one _
  have hsb : |s| ≤ 1 := Real.abs_sin_le_one _
  have hcp : |c * p.1| ≤ 1 := by
    rw [abs_mul]
    exact mul_le_one₀ hcb (abs_nonneg _) h1
  have hsp : |s * p.2| ≤ 1 := by
    rw [abs_mul]
    exact mul_le_one₀ hsb (abs_nonneg _) h2
  have hsp1 : |s * p.1| ≤ 1 := by
    rw [abs_mul]
    exact mul_le_one₀ hsb (abs_nonneg _) h1
  have hcp2 : |c * p.2| ≤ 1 := by
    rw [abs_mul]
    exact mul_le_one₀ hcb (abs_nonneg _) h2
  obtain ⟨hcp1, hcp2'⟩ := abs_le.mp hcp
  obtain ⟨hsp1', hsp2'⟩ := abs_le.mp hsp
  obtain ⟨hsp11, hsp12⟩ := abs_le.mp hsp1
  obtain ⟨hcp21, hcp22⟩ := abs_le.mp hcp2
  unfold pmApply
  rw [Set.mem_prod]
  constructor <;> rw [Set.mem_Icc] <;> constructor <;> simp only [← hc, ← hs] <;> linarith

lemma polyClose_def (r : ℝ) (s : Poly) :
    polyClose r s = polyOffset (-r) (polyOffset r s) := rfl

/-- C1 counterexample.  First conjunct: with the two-layer scene (large
bottom layer, empty top layer) and one contact cell at the origin, a beam
stamped in band 0 survives into rewritten layer 1, while
`close(ignored_gap)` of layer 1's combined outlines is empty — so
`(a'_1 ∪ b'_1) ⊆ (a_1 ∪ b_1).close(ignored_gap)` fails.  Second conjunct:
with two identical overlapping single-layer meshes and no contact cells,
the rewrite leaves both outlines equal to the same 4×4 square, whose
intersection has area 16 ≠ 0 — so `a'_0 ∩ b'_0` does not have zero area. -/
theorem rewrite_envelope_cex :
    (¬ polyUnion
        ((applyMicrostructureToOutlines 22.5 ⟨2, 2, 4⟩ 2 false cexMeshA1 cexMeshB1
            cexCells1 cexTmpl (computeLayerRegions 22.5 cexMeshA1 cexMeshB1)).1.layerPoly 1)
        ((applyMicrostructureToOutlines 22.5 ⟨2, 2, 4⟩ 2 false cexMeshA1 cexMeshB1
            cexCells1 cexTmpl (computeLayerRegions 22.5 cexMeshA1 cexMeshB1)).2.layerPoly 1)
      ⊆ polyClose ((ignored_gap : ℤ) : ℝ)
          (polyUnion (cexMeshA1.layerPoly 1) (cexMeshB1.layerPoly 1))) ∧
    ¬ ZeroArea (polyInter
        ((applyMicrostructureToOutlines 22.5 ⟨2, 2, 4⟩ 2 false cexMeshA0 cexMeshB0
            (∅ : Finset GridPoint3) cexTmpl
            (computeLayerRegions 22.5 cexMeshA0 cexMeshB0)).1.layerPoly 0)
        ((applyMicrostructureToOutlines 22.5 ⟨2, 2, 4⟩ 2 false cexMeshA0 cexMeshB0
            (∅ : Finset GridPoint3) cexTmpl
            (computeLayerRegions 22.5 cexMeshA0 cexMeshB0)).2.layerPoly 0)) := by
  constructor
  · intro hsub
    have hmax : max cexMeshA1.layers.length cexMeshB1.layers.length = 2 := rfl
    have hA1 : cexMeshA1.layerPoly 1 = ∅ := rfl
    have hraw : ∀ m : Bool, structRaw ⟨2, 2, 4⟩ 2 2 cexCells1 cexTmpl m 0 =
        polyTranslate (0, 0) (cexTmpl false m) := by
      intro m
      rw [structRaw_cexCells1, cellStructure_cex]
    have hcomb0 : combinedLayer cexMeshA1 cexMeshB1 0 =
        polyUnion cexBigRect cexBigRect := by
      unfold combinedLayer
      rw [if_pos (by norm_num [cexMeshA1]), if_pos (by norm_num [cexMeshB1])]
      rfl
    have hregion0 : (computeLayerRegions 22.5 cexMeshA1 cexMeshB1).getD 0 ∅ =
        applyMatrix (pmApply 22.5)
          (polyOffset (-((ignored_gap : ℤ) : ℝ))
            (polyOffset ((ignored_gap : ℤ) : ℝ)
              (combinedLayer cexMeshA1 cexMeshB1 0))) := by
      rw [computeLayerRegions_getD, if_pos (by rw [hmax]; norm_num)]
    have hwraw : ((1/2 : ℝ), (1/2 : ℝ)) ∈ polyTranslate (0, 0) (cexTmpl false false) := by
      rw [polyTranslate_zero, cexTmpl_ff, Set.mem_prod]
      constructor <;> rw [Set.mem_Icc] <;> norm_num
    have hwnraw : ((1/2 : ℝ), (1/2 : ℝ)) ∉ polyTranslate (0, 0) (cexTmpl false true) := by
      rw [polyTranslate_zero, cexTmpl_ft]
      intro hmem
      rw [Set.mem_prod, Set.mem_Icc] at hmem
      have := hmem.1.1
      norm_num at this
    have hv : pmInverseApply 22.5 ((1/2 : ℝ), (1/2 : ℝ)) ∈
        combinedLayer cexMeshA1 cexMeshB1 0 := by
      rw [hcomb0]
      refine Or.inl (pmApply_mem_cexBigRect (-22.5) _ ?_ ?_) <;>
        · rw [show |((1:ℝ)/2)| = 1/2 from abs_of_pos (by norm_num)]
          norm_num
    have hwreg : ((1/2 : ℝ), (1/2 : ℝ)) ∈
        (computeLayerRegions 22.5 cexMeshA1 cexMeshB1).getD 0 ∅ := by
      rw [hregion0]
      refine ⟨pmInverseApply 22.5 ((1/2 : ℝ), (1/2 : ℝ)), ?_,
        pmApply_pmInverseApply 22.5 _⟩
      rw [← polyClose_def]
      exact subset_polyClose _ (by norm_num [ignored_gap]) _ hv
    have hx0mem : pmInverseApply 22.5 ((1/2 : ℝ), (1/2 : ℝ)) ∈
        structPost 22.5 false (computeLayerRegions 22.5 cexMeshA1 cexMeshB1)
          ⟨2, 2, 4⟩ 2 2 cexCells1 cexTmpl false 0 := by
      unfold structPost
      rw [if_neg (by simp)]
      refine Set.mem_image_of_mem _ ⟨hwreg, ?_⟩
      rw [hraw false]
      exact hwraw
    have hx0not : pmInverseApply 22.5 ((1/2 : ℝ), (1/2 : ℝ)) ∉
        structPost 22.5 false (computeLayerRegions 22.5 cexMeshA1 cexMeshB1)
          ⟨2, 2, 4⟩ 2 2 cexCells1 cexTmpl true 0 := by
      intro hmem
      unfold structPost at hmem
      rw [if_neg (by simp)] at hmem
      obtain ⟨w2, hw2, heq⟩ := hmem
      have hww : w2 = ((1/2 : ℝ), (1/2 : ℝ)) := pmInverseApply_injective 22.5 heq
      subst hww
      rw [hraw true] at hw2
      exact hwnraw hw2.2
    have hmem1 : pmInverseApply 22.5 ((1/2 : ℝ), (1/2 : ℝ)) ∈ polyUnion
        ((applyMicrostructureToOutlines 22.5 ⟨2, 2, 4⟩ 2 false cexMeshA1 cexMeshB1
            cexCells1 cexTmpl (computeLayerRegions 22.5 cexMeshA1 cexMeshB1)).1.layerPoly 1)
        ((applyMicrostructureToOutlines 22.5 ⟨2, 2, 4⟩ 2 false cexMeshA1 cexMeshB1
            cexCells1 cexTmpl (computeLayerRegions 22.5 cexMeshA1 cexMeshB1)).2.layerPoly 1) := by
      rw [apply_layerPoly_a, if_pos (by norm_num [cexMeshA1] : (1:ℕ) < cexMeshA1.layers.length),
        hmax, (by norm_num : (1:ℕ) / 2 = 0), hA1]
      exact Set.mem_union_left _ ⟨Or.inr hx0mem, hx0not⟩
    have hcontra := hsub hmem1
    rw [hA1, show cexMeshB1.layerPoly 1 = ∅ from rfl, polyUnion_empty_right,
      polyClose_empty] at hcontra
    exact absurd hcontra (Set.not_mem_empty _)
  · rw [apply_layerPoly_a, apply_layerPoly_b]
    have hlenA : (0:ℕ) < cexMeshA0.layers.length := by norm_num [cexMeshA0]
    have hlenB : (0:ℕ) < cexMeshB0.layers.length := by norm_num [cexMeshB0]
    rw [if_pos hlenA, if_pos hlenB]
    rw [structPost_rawEmpty, structPost_rawEmpty, polyUnion_empty_right,
      polyUnion_empty_right, polyDiff_empty_right, polyDiff_empty_right,
      cexMeshA0_layerPoly, cexMeshB0_layerPoly]
    rw [show polyInter cexRect cexRect = cexRect from Set.inter_self cexRect]
    exact cexRect_volume

/-! ### Claim C5 -/

/-- Four-layer mesh a: large layers 0, 2, 3; empty layer 1. -/
def cexMeshA5 : Slicer :=
  ⟨[⟨0, cexBigRect⟩, ⟨1, ∅⟩, ⟨2, cexBigRect⟩, ⟨3, cexBigRect⟩], 0, 1, cexBB⟩

/-- Four-layer mesh b: same geometry, other extruder. -/
def cexMeshB5 : Slicer :=
  ⟨[⟨0, cexBigRect⟩, ⟨1, ∅⟩, ⟨2, cexBigRect⟩, ⟨3, cexBigRect⟩], 1, 1, cexBB⟩

lemma cellStructure_cex_band1 (tmpl : Bool → Bool → Poly) (m : Bool) :
    cellStructure ⟨2, 2, 4⟩ 2 4 tmpl ⟨0, 0, 0⟩ m 1 =
      polyTranslate (0, 0) (tmpl true m) := by
  unfold cellStructure
  have hcorner : ((VoxelUtils.mk ⟨2, 2, 4⟩).toLowerCorner ⟨0, 0, 0⟩) =
      (⟨0, 0, 0⟩ : Point3) := by decide
  rw [hcorner]
  have hset : {k : ℤ | k ∈ stampLayers (uint32wrap (Point3.mk 0 0 0).z)
      ((Point3.mk 0 0 0).z + (Point3.mk 2 2 4).z) 4 2 ∧
      Int.tdiv k ((2:ℕ) : ℤ) = ((1:ℕ) : ℤ)} = {(2:ℤ)} := by
    ext k
    have hsl : stampLayers (uint32wrap (Point3.mk 0 0 0).z)
        ((Point3.mk 0 0 0).z + (Point3.mk 2 2 4).z) 4 2 = [(0:ℤ), 2] := by decide
    rw [hsl]
    simp only [Set.mem_setOf_eq, List.mem_cons, List.mem_singleton,
      List.not_mem_nil, or_false, Set.mem_singleton_iff]
    constructor
    · rintro ⟨rfl | rfl, hdiv⟩
      · exact absurd hdiv (by decide)
      · rfl
    · rintro rfl
      exact ⟨Or.inr rfl, by decide⟩
  rw [hset]
  have : ((0:ℝ), (0:ℝ)) = (((Point3.mk 0 0 0).x : ℝ), ((Point3.mk 0 0 0).y : ℝ)) := by
    norm_num
  rw [this]
  rw [Set.biUnion_singleton]
  norm_num

lemma cexTmpl_tf : cexTmpl true false = Set.Icc (0:ℝ) 2 ×ˢ Set.Icc (0:ℝ) 1 := by
  have h := (microBase_eval (1, 1) ⟨2, 2, 4⟩ (by decide) (by decide) (by decide)
    (by decide) (by decide)).1
  unfold cexTmpl generateMicrostructure
  rw [if_pos rfl, h, transposePoly_prod]
  norm_num

lemma applyMatrix_empty (f : Pt → Pt) : applyMatrix f (∅ : Poly) = ∅ := by
  unfold applyMatrix
  exact Set.image_empty f

/-- C5 (code bug): in the scene with four layers (layer 1 empty, layers 2-3
large) and one contact cell, the post-processed band-1 structure of the code
is empty — the code clips band `b` against `layer_regions[b]`, here the
empty region of layer 1 — whereas the spec's clip against
`layer_regions[b · beam_layer_count]` (the region of layer 2) keeps the
stamped beam: that intersection, un-rotated, is nonempty. -/
theorem clip_band_index_bug :
    structPost 22.5 false (computeLayerRegions 22.5 cexMeshA5 cexMeshB5) ⟨2, 2, 4⟩ 2 4
        cexCells1 cexTmpl false 1 = ∅ ∧
    applyMatrix (pmInverseApply 22.5)
      (polyInter ((computeLayerRegions 22.5 cexMeshA5 cexMeshB5).getD (1 * 2) ∅)
        (structRaw ⟨2, 2, 4⟩ 2 4 cexCells1 cexTmpl false 1)) ≠ ∅ := by
  have hcomb1 : combinedLayer cexMeshA5 cexMeshB5 1 = ∅ := by
    unfold combinedLayer
    rw [if_pos (by norm_num [cexMeshA5]), if_pos (by norm_num [cexMeshB5])]
    rw [show cexMeshA5.layerPoly 1 = ∅ from rfl, show cexMeshB5.layerPoly 1 = ∅ from rfl]
    exact polyUnion_empty_right ∅
  have hcomb2 : combinedLayer cexMeshA5 cexMeshB5 2 =
      polyUnion cexBigRect cexBigRect := by
    unfold combinedLayer
    rw [if_pos (by norm_num [cexMeshA5]), if_pos (by norm_num [cexMeshB5])]
    rfl
  have hraw : structRaw ⟨2, 2, 4⟩ 2 4 cexCells1 cexTmpl false 1 =
      polyTranslate (0, 0) (cexTmpl true false) := by
    rw [structRaw_cexCells1, cellStructure_cex_band1]
  constructor
  · unfold structPost
    rw [if_neg (by simp)]
    rw [computeLayerRegions_getD, if_pos (by norm_num [cexMeshA5, cexMeshB5])]
    rw [hcomb1, ← polyClose_def, polyClose_empty, applyMatrix_empty]
    rw [show polyInter ∅ (structRaw ⟨2, 2, 4⟩ 2 4 cexCells1 cexTmpl false 1) = ∅ from
      Set.empty_inter _]
    exact applyMatrix_empty _
  · intro h
    rw [Set.eq_empty_iff_forall_not_mem] at h
    refine h (pmInverseApply 22.5 ((1:ℝ), (1/2:ℝ))) (Set.mem_image_of_mem _ ⟨?_, ?_⟩)
    · rw [computeLayerRegions_getD, if_pos (by norm_num [cexMeshA5, cexMeshB5])]
      refine ⟨pmInverseApply 22.5 ((1:ℝ), (1/2:ℝ)), ?_, pmApply_pmInverseApply 22.5 _⟩
      rw [← polyClose_def]
      refine subset_polyClose _ (by norm_num [ignored_gap]) _ ?_
      rw [hcomb2]
      refine Or.inl (pmApply_mem_cexBigRect (-22.5) _ ?_ ?_)
      · rw [show |(1:ℝ)| = 1 from abs_of_pos (by norm_num)]
      · rw [show |((1:ℝ)/2)| = 1/2 from abs_of_pos (by norm_num)]
        norm_num
    · rw [hraw, polyTranslate_zero, cexTmpl_tf, Set.mem_prod]
      constructor <;> rw [Set.mem_Icc] <;> norm_num

/-! ## Per-pair pipeline (`generateInterlockingStructure`, instance method,
InterlockingGenerator.cpp lines 75-100) -/

/-- `DilationKernel` (declared in VoxelUtils.h lines 20-49); its offset
enumeration is constructed outside the verified sources, so only the
constructor arguments are carried.  `type`: 0 = CUBE, 1 = DIAMOND, 2 = PRISM. -/
structure DilationKernel where
  kernel_size : GridPoint3
  type : ℕ

/-- The walkers `walkDilatedPolygons` / `walkDilatedAreas` are implemented in
VoxelUtils.cpp, outside the verified sources.  The driver only ever passes a
set-inserting, never-stopping visitor (InterlockingGenerator.cpp line 129),
so a walker is modelled as the set of cells it emits for given polygons,
z and kernel. -/
abbrev Walker := Poly → ℤ → DilationKernel → Finset GridPoint3

/-- `InterlockingGenerator::addBoundaryCells`
(InterlockingGenerator.cpp lines 127-143): per layer, the dilated polygon
walk plus the dilated area walk of the denoised skin
(`xor` with the previous layer, morphological open by `cell_size.x / 2`). -/
def addBoundaryCells (walkDP walkDA : Walker) (cs : Point3)
    (kernel : DilationKernel) (layers : List Poly) : Finset GridPoint3 :=
  (Finset.range layers.length).biUnion fun n =>
    let z : ℤ := (n : ℤ)
    let skin0 : Poly :=
      if 0 < n then polyXor (layers.getD n ∅) (layers.getD (n - 1) ∅)
      else layers.getD n ∅
    let skin : Poly :=
      polyOffset ((Int.tdiv cs.x 2 : ℤ) : ℝ)
        (polyOffset (-((Int.tdiv cs.x 2 : ℤ) : ℝ)) skin0)
    walkDP (layers.getD n ∅) z kernel ∪ walkDA skin z kernel

/-- The rotated copy of a mesh's layer stack
(InterlockingGenerator.cpp lines 113-119). -/
def rotatedLayers (θ : ℝ) (mesh : Slicer) : List Poly :=
  mesh.layers.map fun L => applyMatrix (pmApply θ) L.polygons

/-- `InterlockingGenerator::getShellVoxels`
(InterlockingGenerator.cpp lines 102-125): the boundary cells of each mesh's
rotated layer stack.  Component 1 is mesh a's set, component 2 mesh b's. -/
def getShellVoxels (walkDP walkDA : Walker) (θ : ℝ) (cs : Point3)
    (kernel : DilationKernel) (a b : Slicer) :
    Finset GridPoint3 × Finset GridPoint3 :=
  (addBoundaryCells walkDP walkDA cs kernel (rotatedLayers θ a),
   addBoundaryCells walkDP walkDA cs kernel (rotatedLayers θ b))

/-- `std::unordered_set::merge` as called at InterlockingGenerator.cpp line
83: elements of `source` absent from `target` move into `target`; elements
present in both remain in `source`.  Components: (target after, source
after), i.e. (union, intersection). -/
def unorderedSetMerge (target source : Finset GridPoint3) :
    Finset GridPoint3 × Finset GridPoint3 :=
  (target ∪ source, source ∩ target)

/-- Modelled from the spec: the explicit contact-set computation
`contact = S_a ∩ S_b` that the spec prescribes in place of the merge trick. -/
def contactSpec (Sa Sb : Finset GridPoint3) : Finset GridPoint3 := Sa ∩ Sb

/-- The per-pair parameters (constructor arguments of
`InterlockingGenerator`, InterlockingGenerator.h / cpp lines 47-65). -/
structure GenParams where
  beam_widths : ℤ × ℤ
  rotationDeg : ℝ
  cell_size : Point3
  beam_layer_count : ℕ
  interface_dilation : DilationKernel
  air_dilation : DilationKernel
  air_filtering : Bool

/-- `has_all_meshes` after the merge (InterlockingGenerator.cpp lines 81-83):
the intersection of the two shell voxel sets. -/
def pairContactCells (walkDP walkDA : Walker) (P : GenParams) (a b : Slicer) :
    Finset GridPoint3 :=
  (unorderedSetMerge
    (getShellVoxels walkDP walkDA P.rotationDeg P.cell_size P.interface_dilation a b).1
    (getShellVoxels walkDP walkDA P.rotationDeg P.cell_size P.interface_dilation a b).2).2

/-- The cell set handed to `applyMicrostructureToOutlines`: the contact
cells, with the air cells erased when `air_filtering`
(InterlockingGenerator.cpp lines 85-94). -/
def pairCells (walkDP walkDA : Walker) (P : GenParams) (a b : Slicer) :
    Finset GridPoint3 :=
  if P.air_filtering then
    pairContactCells walkDP walkDA P a b \
      addBoundaryCells walkDP walkDA P.cell_size P.air_dilation
        (computeLayerRegions P.rotationDeg a b)
  else pairContactCells walkDP walkDA P a b

/-- The per-pair `InterlockingGenerator::generateInterlockingStructure`
(InterlockingGenerator.cpp lines 75-100). -/
def generateInterlockingPair (walkDP walkDA : Walker) (P : GenParams)
    (a b : Slicer) : Slicer × Slicer :=
  applyMicrostructureToOutlines P.rotationDeg P.cell_size P.beam_layer_count
    P.air_filtering a b (pairCells walkDP walkDA P a b)
    (generateMicrostructure P.beam_widths P.cell_size)
    (computeLayerRegions P.rotationDeg a b)

/-! ## Top-level entry point
(`generateInterlockingStructure(std::vector<Slicer*>&)`,
InterlockingGenerator.cpp lines 33-73) -/

/-- The local `int boundary_avoidance = 0`
(InterlockingGenerator.cpp line 54). -/
def boundary_avoidance : ℤ := 0

/-- The per-pair parameters the entry point constructs
(InterlockingGenerator.cpp lines 47-65). -/
def entryParams (a b : Slicer) : GenParams :=
  { beam_widths := (2 * a.wall_line_width_0, 2 * b.wall_line_width_0)
    rotationDeg := 22.5
    cell_size := ⟨2 * a.wall_line_width_0 + 2 * b.wall_line_width_0,
      2 * a.wall_line_width_0 + 2 * b.wall_line_width_0, 2 * 2⟩
    beam_layer_count := 2
    interface_dilation := ⟨⟨2, 2, 2⟩, 2⟩
    air_dilation := ⟨⟨boundary_avoidance, boundary_avoidance, boundary_avoidance⟩, 1⟩
    air_filtering := decide (boundary_avoidance > 0) }

/-- The pair-selection condition (InterlockingGenerator.cpp lines 43-45):
different `wall_0` extruders, and mesh a's bounding box inflated by
`ignored_gap` hits mesh b's. -/
def pairCondition (a b : Slicer) : Bool :=
  decide (a.extruder_nr ≠ b.extruder_nr) && (a.aabb.offset ignored_gap).hit b.aabb

/-- All index pairs `(i, j)` with `i < j < n`, in the iteration order of the
two nested loops (InterlockingGenerator.cpp lines 35-39). -/
def allPairs (n : ℕ) : List (ℕ × ℕ) :=
  (List.range n).flatMap fun i => (List.range (n - (i + 1))).map fun d => (i, i + 1 + d)

/-- One iteration body with the condition already passed: run the per-pair
generator on entries `i` and `j` and store the rewritten meshes back. -/
def pairStep (walkDP walkDA : Walker) (vs : List Slicer) (ij : ℕ × ℕ) :
    List Slicer :=
  (vs.set ij.1 (generateInterlockingPair walkDP walkDA
      (entryParams (vs.getD ij.1 default) (vs.getD ij.2 default))
      (vs.getD ij.1 default) (vs.getD ij.2 default)).1).set ij.2
    (generateInterlockingPair walkDP walkDA
      (entryParams (vs.getD ij.1 default) (vs.getD ij.2 default))
      (vs.getD ij.1 default) (vs.getD ij.2 default)).2

/-- One iteration of the nested pair loops, including the pair-selection
condition (InterlockingGenerator.cpp lines 43-69). -/
def pairStepCond (walkDP walkDA : Walker) (vs : List Slicer) (ij : ℕ × ℕ) :
    List Slicer :=
  if pairCondition (vs.getD ij.1 default) (vs.getD ij.2 default) then
    pairStep walkDP walkDA vs ij
  else vs

/-- The public entry point
`InterlockingGenerator::generateInterlockingStructure(std::vector<Slicer*>&)`
(InterlockingGenerator.cpp lines 33-73). -/
def generateInterlockingStructureAll (walkDP walkDA : Walker)
    (volumes : List Slicer) : List Slicer :=
  (allPairs volumes.length).foldl (pairStepCond walkDP walkDA) volumes

/-! ### Claim C7 -/

/-- C7: the cell set used for template stamping (before optional air-cell
removal) is exactly the intersection `S_a ∩ S_b` of the two shell voxel
sets, and the merge of `S_b` into `S_a` leaves the union in the target and
exactly the intersection in the source, for any two sets — the merge trick
refines the spec's explicit intersection. -/
theorem contact_is_intersection (walkDP walkDA : Walker) (P : GenParams)
    (a b : Slicer) (Sa Sb : Finset GridPoint3) :
    pairContactCells walkDP walkDA P a b =
      contactSpec
        (getShellVoxels walkDP walkDA P.rotationDeg P.cell_size
          P.interface_dilation a b).1
        (getShellVoxels walkDP walkDA P.rotationDeg P.cell_size
          P.interface_dilation a b).2 ∧
    unorderedSetMerge Sa Sb = (Sa ∪ Sb, contactSpec Sa Sb) := by
  constructor
  · unfold pairContactCells unorderedSetMerge contactSpec
    exact Finset.inter_comm _ _
  · unfold unorderedSetMerge contactSpec
    rw [Finset.inter_comm]

/-! ### Claim C10 -/

/-- C10: through the public entry point `boundary_avoidance` is the constant
0, so `air_filtering` is false for every constructed pair generator; the
air-cell removal never runs (the stamped cell set is the full contact set),
and every band structure is intersected with its layer region before
un-rotation. -/
theorem air_filtering_off (walkDP walkDA : Walker) (a b : Slicer)
    (cs : Point3) (blc maxL : ℕ) (cells : Finset GridPoint3)
    (tmpl : Bool → Bool → Poly) (m : Bool) (bnd : ℕ) :
    boundary_avoidance = 0 ∧
    (entryParams a b).air_filtering = false ∧
    pairCells walkDP walkDA (entryParams a b) a b =
      pairContactCells walkDP walkDA (entryParams a b) a b ∧
    structPost (entryParams a b).rotationDeg (entryParams a b).air_filtering
        (computeLayerRegions (entryParams a b).rotationDeg a b) cs blc maxL
        cells tmpl m bnd =
      applyMatrix (pmInverseApply (entryParams a b).rotationDeg)
        (polyInter
          ((computeLayerRegions (entryParams a b).rotationDeg a b).getD bnd ∅)
          (structRaw cs blc maxL cells tmpl m bnd)) := by
  have hair : (entryParams a b).air_filtering = false := rfl
  refine ⟨rfl, hair, ?_, ?_⟩
  · unfold pairCells
    rw [hair]
    simp
  · unfold structPost
    rw [hair]
    simp

/-! ### Claim C8 -/

lemma generateInterlockingPair_attrs (walkDP walkDA : Walker) (P : GenParams)
    (a b : Slicer) :
    ((generateInterlockingPair walkDP walkDA P a b).1.extruder_nr = a.extruder_nr ∧
      (generateInterlockingPair walkDP walkDA P a b).1.aabb = a.aabb) ∧
    ((generateInterlockingPair walkDP walkDA P a b).2.extruder_nr = b.extruder_nr ∧
      (generateInterlockingPair walkDP walkDA P a b).2.aabb = b.aabb) :=
  ⟨⟨rfl, rfl⟩, ⟨rfl, rfl⟩⟩

lemma pairCondition_congr (u u' v v' : Slicer)
    (h1 : u.extruder_nr = u'.extruder_nr) (h2 : u.aabb = u'.aabb)
    (h3 : v.extruder_nr = v'.extruder_nr) (h4 : v.aabb = v'.aabb) :
    pairCondition u v = pairCondition u' v' := by
  unfold pairCondition
  rw [h1, h2, h3, h4]

lemma getD_set_slicer (vs : List Slicer) (i k : ℕ) (x : Slicer) :
    (vs.set i x).getD k default =
      if i = k ∧ i < vs.length then x else vs.getD k default := by
  rw [List.getD_eq_getElem?_getD, List.getElem?_set, List.getD_eq_getElem?_getD]
  by_cases h : i = k
  · subst h
    by_cases hlen : i < vs.length
    · simp [hlen]
    · rw [if_pos rfl, if_neg hlen, if_neg (by tauto)]
      rw [List.getElem?_eq_none (by omega)]
  · rw [if_neg h, if_neg (by tauto)]

/-- Attribute preservation through one unconditional pair step. -/
lemma pairStep_attrs (walkDP walkDA : Walker) (vs : List Slicer) (ij : ℕ × ℕ)
    (k : ℕ) :
    ((pairStep walkDP walkDA vs ij).getD k default).extruder_nr =
        ((vs.getD k default)).extruder_nr ∧
    ((pairStep walkDP walkDA vs ij).getD k default).aabb =
        ((vs.getD k default)).aabb := by
  unfold pairStep
  rw [getD_set_slicer, getD_set_slicer]
  rw [List.length_set]
  by_cases h2 : ij.2 = k ∧ ij.2 < vs.length
  · rw [if_pos h2]
    obtain ⟨rfl, -⟩ := h2
    exact (generateInterlockingPair_attrs walkDP walkDA _ _ _).2
  · rw [if_neg h2]
    by_cases h1 : ij.1 = k ∧ ij.1 < vs.length
    · rw [if_pos h1]
      obtain ⟨rfl, -⟩ := h1
      exact (generateInterlockingPair_attrs walkDP walkDA _ _ _).1
    · rw [if_neg h1]
      exact ⟨rfl, rfl⟩

lemma pairStep_length (walkDP walkDA : Walker) (vs : List Slicer) (ij : ℕ × ℕ) :
    (pairStep walkDP walkDA vs ij).length = vs.length := by
  unfold pairStep
  rw [List.length_set, List.length_set]

/-- The conditional fold over any pair list equals the unconditional fold
over the pairs selected by the condition on the original attribute values,
as long as the running state agrees with the original on the attributes the
condition reads. -/
lemma foldl_pairStepCond_eq (walkDP walkDA : Walker) (volumes : List Slicer) :
    ∀ (pairs : List (ℕ × ℕ)) (vs : List Slicer),
      (∀ k, ((vs.getD k default)).extruder_nr =
          ((volumes.getD k default)).extruder_nr ∧
        ((vs.getD k default)).aabb = ((volumes.getD k default)).aabb) →
      pairs.foldl (pairStepCond walkDP walkDA) vs =
        (pairs.filter fun ij =>
          pairCondition (volumes.getD ij.1 default)
            (volumes.getD ij.2 default)).foldl (pairStep walkDP walkDA) vs := by
  intro pairs
  induction pairs with
  | nil => intro vs _; rfl
  | cons ij rest ih =>
      intro vs hinv
      have hcond : pairCondition (vs.getD ij.1 default) (vs.getD ij.2 default) =
          pairCondition (volumes.getD ij.1 default) (volumes.getD ij.2 default) :=
        pairCondition_congr _ _ _ _ (hinv ij.1).1 (hinv ij.1).2 (hinv ij.2).1 (hinv ij.2).2
      rw [List.foldl_cons, List.filter_cons]
      by_cases h : pairCondition (volumes.getD ij.1 default) (volumes.getD ij.2 default)
      · rw [if_pos h, List.foldl_cons]
        have hstep : pairStepCond walkDP walkDA vs ij = pairStep walkDP walkDA vs ij := by
          unfold pairStepCond
          rw [hcond, if_pos h]
        rw [hstep]
        refine ih (pairStep walkDP walkDA vs ij) ?_
        intro k
        obtain ⟨he, ha⟩ := pairStep_attrs walkDP walkDA vs ij k
        exact ⟨he.trans (hinv k).1, ha.trans (hinv k).2⟩
      · rw [if_neg h]
        have hstep : pairStepCond walkDP walkDA vs ij = vs := by
          unfold pairStepCond
          rw [hcond, if_neg h]
        rw [hstep]
        exact ih vs hinv

lemma mem_allPairs (n i j : ℕ) : (i, j) ∈ allPairs n ↔ i < j ∧ j < n := by
  unfold allPairs
  simp only [List.mem_flatMap, List.mem_map, List.mem_range, Prod.mk.injEq]
  constructor
  · rintro ⟨i', hi', d, hd, rfl, rfl⟩
    omega
  · rintro ⟨hij, hjn⟩
    exact ⟨i, by omega, j - i - 1, by omega, rfl, by omega⟩

/-- C8: the entry point runs the per-pair generator exactly on the unordered
pairs `(i, j)`, `i < j`, whose `wall_0` extruder numbers differ and whose
bounding boxes, inflated by `ignored_gap`, overlap — the run equals the
unconditional fold over exactly the selected pairs, so a pair failing either
condition contributes no step and mutates neither mesh; `allPairs` visits
exactly the pairs `i < j < |volumes|`. -/
theorem pair_selection (walkDP walkDA : Walker) (volumes : List Slicer) :
    generateInterlockingStructureAll walkDP walkDA volumes =
      ((allPairs volumes.length).filter fun ij =>
        pairCondition (volumes.getD ij.1 default)
          (volumes.getD ij.2 default)).foldl (pairStep walkDP walkDA) volumes ∧
    (∀ i j : ℕ, (i, j) ∈ allPairs volumes.length ↔ i < j ∧ j < volumes.length) ∧
    (∀ u v : Slicer, pairCondition u v = true ↔
      (u.extruder_nr ≠ v.extruder_nr ∧ (u.aabb.offset ignored_gap).hit v.aabb = true)) :=
  ⟨foldl_pairStepCond_eq walkDP walkDA volumes (allPairs volumes.length) volumes
      (fun _ => ⟨rfl, rfl⟩),
   fun i j => mem_allPairs volumes.length i j,
   fun u v => by
    unfold pairCondition
    rw [Bool.and_eq_true, decide_eq_true_eq]⟩

/-- Witness for `rewrite_formula` at the single-layer overlapping scene,
mesh 0, layer 0. -/
theorem rewrite_formula_witness :
    0 < (cond false cexMeshB0 cexMeshA0).layers.length ∧
    (cond false
        (applyMicrostructureToOutlines 22.5 ⟨2, 2, 4⟩ 2 false cexMeshA0 cexMeshB0
          (∅ : Finset GridPoint3) cexTmpl []).2
        (applyMicrostructureToOutlines 22.5 ⟨2, 2, 4⟩ 2 false cexMeshA0 cexMeshB0
          (∅ : Finset GridPoint3) cexTmpl []).1).layerPoly 0 =
      polyDiff
        (polyUnion ((cond false cexMeshB0 cexMeshA0).layerPoly 0)
          (structPost 22.5 false [] ⟨2, 2, 4⟩ 2
            (max cexMeshA0.layers.length cexMeshB0.layers.length)
            (∅ : Finset GridPoint3) cexTmpl false (0 / 2)))
        (structPost 22.5 false [] ⟨2, 2, 4⟩ 2
          (max cexMeshA0.layers.length cexMeshB0.layers.length)
          (∅ : Finset GridPoint3) cexTmpl (!false) (0 / 2)) :=
  ⟨by simp [cexMeshA0], rewrite_formula 22.5 ⟨2, 2, 4⟩ 2 false cexMeshA0 cexMeshB0
    (∅ : Finset GridPoint3) cexTmpl [] false 0 (by simp [cexMeshA0])⟩

end CuraEngine
